import Mathlib

/-!
# snbtlib, `utils.c`: the node mutation engine

A shallow embedding of the functions of `src/utils.c` and the properties of
the specification that concern them.

Conventions of the embedding.

* A pointer that may be null is an `Option`; `none` is the null pointer.
* A function result of `none` means that the C code has no defined result on
  that input: it reads or writes outside an allocated buffer, releases a
  pointer that is not a block of its own, or reads a member of the payload
  union other than the one stored there (the outcome then depends on the
  memory layout of the union, which is declared in `nbt.h`).
* Buffers are lists of elements. The size fields are `nbt_int` values and the
  byte offsets of `insert` and `delete` are `int` values: both are integers
  kept in 32 bits, and the conversions to and from `size_t` (64 bits) are
  written out. The cursor is a `uint64_t` value. The count `int l` of the
  Compound scan is taken to stay below `2 ^ 31`.
* The platform is x86-64 with glibc: integers are stored little-endian, so that
  the scalar members of the payload union share their low-order bytes; a
  pointer has eight bytes; `realloc(p, 0)` with `p` not null releases the
  block and returns the null pointer.
* `malloc` and `realloc` belong to the environment. Whether a call for a size
  above 0 returns a block is an explicit boolean argument of `insert`,
  `delete` and `set_string`.
-/

namespace Snbt

/-! ## Constants of `nbt.h` -/

abbrev NBT_TAG_END : Int := 0
abbrev NBT_TAG_BYTE : Int := 1
abbrev NBT_TAG_SHORT : Int := 2
abbrev NBT_TAG_INT : Int := 3
abbrev NBT_TAG_LONG : Int := 4
abbrev NBT_TAG_FLOAT : Int := 5
abbrev NBT_TAG_DOUBLE : Int := 6
abbrev NBT_TAG_BYTE_ARRAY : Int := 7
abbrev NBT_TAG_STRING : Int := 8
abbrev NBT_TAG_LIST : Int := 9
abbrev NBT_TAG_COMPOUND : Int := 10
abbrev NBT_TAG_INT_ARRAY : Int := 11

/-- Modelled from the spec: `nbt.h` is not among the sources. `Invalid` is a
sentinel kind outside the storable range `End .. IntArray`. -/
abbrev NBT_TAG_INVALID : Int := -1

/-- Modelled from the spec: `nbt.h` is not among the sources. The generic
"node" marker reported as the children kind of a Compound; it is none of the
payload kinds. -/
abbrev NBT_TAG_TAG : Int := 12

/-- Modelled from the spec: `nbt.h` is not among the sources. The error results
are distinct negative values (section 7). -/
abbrev NBT_ERR_INVALID_ARG : Int := -1

/-- Modelled from the spec: the `InvalidType` result, see `NBT_ERR_INVALID_ARG`. -/
abbrev NBT_ERR_INVALID_TYPE : Int := -2

/-- Modelled from the spec: the `NonEmpty` result, see `NBT_ERR_INVALID_ARG`. -/
abbrev NBT_ERR_NONEMPTY : Int := -3

/-- Modelled from the spec: the `OutOfMemory` result, see `NBT_ERR_INVALID_ARG`. -/
abbrev NBT_ERR_MEMORY : Int := -4

/-- Modelled from the spec: the macro `NBT_IS_INTEGER` of `nbt.h`; the integer
kinds are Byte, Short, Int and Long. -/
def NBT_IS_INTEGER (k : Int) : Bool :=
  k == NBT_TAG_BYTE || k == NBT_TAG_SHORT || k == NBT_TAG_INT || k == NBT_TAG_LONG

/-- Modelled from the spec: the macro `NBT_IS_REAL` of `nbt.h`; the real kinds
are Float and Double. -/
def NBT_IS_REAL (k : Int) : Bool :=
  k == NBT_TAG_FLOAT || k == NBT_TAG_DOUBLE

/-- Modelled from the spec: the macro `NBT_IS_STRING` of `nbt.h`. -/
def NBT_IS_STRING (k : Int) : Bool :=
  k == NBT_TAG_STRING

/-- The low `w` bits of `v`, as an unsigned number. -/
def to_bits (w : Nat) (v : Int) : Nat :=
  (v % (2 : Int) ^ w).toNat

/-- The low `w` bits of `b` read as a signed `w`-bit integer. -/
def of_bits (w : Nat) (b : Nat) : Int :=
  if b % 2 ^ w < 2 ^ (w - 1) then ((b % 2 ^ w : Nat) : Int)
  else ((b % 2 ^ w : Nat) : Int) - (2 : Int) ^ w

/-- The conversion of an unsigned value to `int` or to `nbt_int`: the low 32
bits, with their sign, as gcc and clang define it. -/
def to_int (x : Nat) : Int :=
  of_bits 32 x

/-- The conversion of an `int` or `nbt_int` to `size_t`. -/
def to_size_t (v : Int) : Nat :=
  to_bits 64 v

/-! ## Sizes of the types of `nbt.h` -/

/-- Modelled from the spec: `nbt.h` is not among the sources. The stride of a
byte array is one byte (section 4.3). -/
abbrev sizeof_nbt_byte : Nat := 1

/-- Modelled from the spec: `nbt.h` is not among the sources. The stride of an
int array is four bytes (section 4.3). -/
abbrev sizeof_nbt_int : Nat := 4

/-- Modelled from the spec: `nbt.h` is not among the sources. The stride of a
list is one payload union (section 4.3); its largest members hold a size or
length and a pointer, sixteen bytes on x86-64. -/
abbrev sizeof_nbt_payload : Nat := 16

/-- Modelled from the spec: `nbt.h` is not among the sources. The stride of a
Compound is one full node (section 4.3): kind, payload, cursor and name,
forty-eight bytes on x86-64. -/
abbrev sizeof_nbt_tag : Nat := 48

/-! ## Data model -/

/-- The type `nbt_string`: a length and a character buffer. -/
structure nbt_string where
  length : Nat
  chars : Option (List Nat)
  deriving DecidableEq, Repr

mutual
/-- The union `nbt_payload`, with the member that is stored in it.
`scalar` holds the eight bytes shared by the members `byte_payload`,
`short_payload`, `int_payload`, `long_payload`, `float_payload` and
`double_payload`. -/
inductive nbt_payload where
  | scalar (bits : Nat)
  | byte_array (size : Int) (bytes : Option (List Int))
  | string (s : nbt_string)
  | list (tag_id : Int) (size : Int) (tags : Option (List nbt_payload))
  | compound (tags : Option (List nbt_tag))
  | int_array (size : Int) (ints : Option (List Int))
/-- The struct `nbt_tag`. -/
inductive nbt_tag where
  | mk (id : Int) (payload : nbt_payload) (position : Nat) (name : nbt_string)
end

/-- Field `id`. -/
def nbt_tag.id : nbt_tag → Int
  | .mk i _ _ _ => i

/-- Field `payload`. -/
def nbt_tag.payload : nbt_tag → nbt_payload
  | .mk _ p _ _ => p

/-- Field `position`. -/
def nbt_tag.position : nbt_tag → Nat
  | .mk _ _ c _ => c

/-- Field `name`. -/
def nbt_tag.name : nbt_tag → nbt_string
  | .mk _ _ _ n => n

/-- The object a `void *value` argument of `insert` points to: the eight-byte
`int64_t` or `double` parameter of `nbt_insert_integer` and `nbt_insert_real`,
an `nbt_string`, an `nbt_tag`, or a whole `nbt_payload` union. -/
inductive Obj where
  | word (bits : Nat)
  | str (s : nbt_string)
  | node (t : nbt_tag)
  | payload (p : nbt_payload)

/-- The `sizeof(nbt_byte)` bytes at `value`: the low-order byte of a scalar.
The first bytes of a string or of a node depend on the layout of `nbt.h`: no
result in the model. -/
def Obj.as_byte : Obj → Option Int
  | .word bits => some (of_bits 8 bits)
  | .payload (.scalar bits) => some (of_bits 8 bits)
  | _ => none

/-- The `sizeof(nbt_int)` bytes at `value`: the low-order four bytes of a
scalar. -/
def Obj.as_int : Obj → Option Int
  | .word bits => some (of_bits 32 bits)
  | .payload (.scalar bits) => some (of_bits 32 bits)
  | _ => none

/-- The `sizeof(nbt_payload)` bytes at `value`. An eight-byte object is
shorter than that: the copy reads past its end, no defined result. An
`nbt_string`, a length and a pointer, fills the union. The first bytes of a
node depend on the layout of `nbt_tag`: no result in the model. -/
def Obj.as_payload : Obj → Option nbt_payload
  | .payload p => some p
  | .str s => some (.string s)
  | _ => none

/-- The `sizeof(nbt_tag)` bytes at `value`; any other object is shorter than a
node. -/
def Obj.as_tag : Obj → Option nbt_tag
  | .node t => some t
  | _ => none

/-! ## Queries -/

/-- The loop of `nbt_get_length` over a Compound buffer: the number of entries
before the first one of kind End; `none` when the buffer has no such entry and
the loop runs off its end. -/
def scan_end : List nbt_tag → Option Nat
  | [] => none
  | t :: ts => if t.id = NBT_TAG_END then some 0 else (scan_end ts).map (· + 1)

/-- The function `nbt_get_length`. -/
def nbt_get_length (tag : Option nbt_tag) : Option Nat :=
  match tag with
  | none => some (to_bits 64 NBT_ERR_INVALID_ARG)
  | some t =>
    if t.id = NBT_TAG_BYTE_ARRAY then
      match t.payload with
      | .byte_array size _ => some (to_size_t size)
      | _ => none
    else if t.id = NBT_TAG_LIST then
      match t.payload with
      | .list _ size _ => some (to_size_t size)
      | _ => none
    else if t.id = NBT_TAG_COMPOUND then
      match t.payload with
      | .compound none => some 0
      | .compound (some ts) => scan_end ts
      | _ => none
    else if t.id = NBT_TAG_INT_ARRAY then
      match t.payload with
      | .int_array size _ => some (to_size_t size)
      | _ => none
    else if t.id = NBT_TAG_STRING then
      match t.payload with
      | .string s => some s.length
      | _ => none
    else some 1

/-- The function `nbt_get_children_type`. -/
def nbt_get_children_type (tag : Option nbt_tag) : Option Int :=
  match tag with
  | none => some NBT_TAG_INVALID
  | some t =>
    if t.id = NBT_TAG_BYTE_ARRAY then some NBT_TAG_BYTE
    else if t.id = NBT_TAG_INT_ARRAY then some NBT_TAG_INT
    else if t.id = NBT_TAG_LIST then
      match t.payload with
      | .list tag_id _ _ => some tag_id
      | _ => none
    else if t.id = NBT_TAG_COMPOUND then some NBT_TAG_TAG
    else some t.id

/-! ## The cursor -/

/-- The assignment `tag->position = c`. -/
def nbt_tag.with_position (t : nbt_tag) (c : Nat) : nbt_tag :=
  .mk t.id t.payload c t.name

/-- The assignment `tag->payload = p`. -/
def nbt_tag.with_payload (t : nbt_tag) (p : nbt_payload) : nbt_tag :=
  .mk t.id p t.position t.name

/-- The function `nbt_set_position`. The field `position` is declared in
`nbt.h`; it is taken to have the type of the argument, `uint64_t`, so that
the value is stored as it is. The result is the new position converted to
`int`. -/
def nbt_set_position (tag : Option nbt_tag) (value : Nat) : Int × Option nbt_tag :=
  match tag with
  | none => (NBT_ERR_INVALID_ARG, none)
  | some t => (of_bits 32 value, some (t.with_position value))

/-- The place an `nbt_payload *` returned by `next_payload` points to: the
payload of the node itself, or the element with the given index of the byte
buffer, of the list buffer, of the child buffer (the payload of that child), or
of the int buffer. -/
inductive Slot where
  | self
  | byte_at (i : Nat)
  | list_at (i : Nat)
  | child_at (i : Nat)
  | int_at (i : Nat)
  deriving DecidableEq, Repr

/-- The function `next_tag`: the index of the child the returned pointer
addresses, and the node with its cursor advanced. -/
def next_tag (tag : nbt_tag) : Option (Nat × nbt_tag) :=
  (nbt_get_length (some tag)).bind fun len =>
    let position := if tag.position ≥ len then 0 else tag.position
    match tag.payload with
    | .compound _ => some (position, tag.with_position (position + 1))
    | _ => none

/-- The function `next_payload`. -/
def next_payload (tag : nbt_tag) : Option (Slot × nbt_tag) :=
  (nbt_get_length (some tag)).bind fun len =>
    let position := if tag.position ≥ len then 0 else tag.position
    if tag.id = NBT_TAG_BYTE_ARRAY then
      some (.byte_at position, tag.with_position (position + 1))
    else if tag.id = NBT_TAG_LIST then
      some (.list_at position, tag.with_position (position + 1))
    else if tag.id = NBT_TAG_COMPOUND then
      some (.child_at position, tag.with_position (position + 1))
    else if tag.id = NBT_TAG_INT_ARRAY then
      some (.int_at position, tag.with_position (position + 1))
    else some (.self, tag.with_position position)

/-! ## The resize engine -/

/-- The three `memcpy` calls of `insert`. `unit_size` is the stride, `length`
the length after `++length`, `orig` the old buffer. `elem_pos` is the `int`
of the source, `rest` the byte count of the third copy, computed in `size_t`.
The result is the new buffer; `none` when the offset is negative or a copy
leaves the old or the new block. Copying no byte from the null pointer does
nothing. An offset is a multiple of the stride unless it has wrapped; for the
strides 1, 4 and 16 a wrapped offset still is one, for the stride of a Compound
a wrapped offset can fall inside an entry, which lists of entries do not
express: no result in the model. -/
def insert_copy {α : Type} (unit_size : Nat) (orig : Option (List α))
    (length position : Nat) (v : α) : Option (List α) :=
  let old := orig.getD []
  let elem_pos := to_int (unit_size * position)
  let rest := to_size_t (((length : Int) - 1) * unit_size - elem_pos)
  if 0 ≤ elem_pos ∧ elem_pos.toNat % unit_size = 0 ∧ rest % unit_size = 0 ∧
      elem_pos.toNat + rest ≤ old.length * unit_size ∧
      elem_pos.toNat + unit_size + rest ≤ length * unit_size % 2 ^ 64 then
    some (old.take (elem_pos.toNat / unit_size) ++ [v] ++
      (old.drop (elem_pos.toNat / unit_size)).take (rest / unit_size))
  else none

/-- The function `insert`; `malloc_ok` tells whether `malloc` returns a block.
The macro `GET_MUL_ATTRIBUTES` is expanded in place: each kind supplies its
stride, its buffer, its length and, except for Compound, its size field; any
other kind returns `NBT_ERR_INVALID_TYPE`. -/
def insert (malloc_ok : Bool) (tag : nbt_tag) (value : Obj) : Option (Int × nbt_tag) :=
  if tag.id = NBT_TAG_BYTE_ARRAY then
    match tag.payload with
    | .byte_array size bytes =>
      if !malloc_ok then some (NBT_ERR_MEMORY, tag) else
      value.as_byte.bind fun v =>
      (insert_copy sizeof_nbt_byte bytes ((to_size_t size + 1) % 2 ^ 64) tag.position v).map
        fun copy =>
        (1, (tag.with_payload
          (.byte_array (to_int ((to_size_t size + 1) % 2 ^ 64)) (some copy))).with_position
          (tag.position + 1))
    | _ => none
  else if tag.id = NBT_TAG_LIST then
    match tag.payload with
    | .list tag_id size tags =>
      if !malloc_ok then some (NBT_ERR_MEMORY, tag) else
      value.as_payload.bind fun v =>
      (insert_copy sizeof_nbt_payload tags ((to_size_t size + 1) % 2 ^ 64) tag.position v).map
        fun copy =>
        (1, (tag.with_payload
          (.list tag_id (to_int ((to_size_t size + 1) % 2 ^ 64)) (some copy))).with_position
          (tag.position + 1))
    | _ => none
  else if tag.id = NBT_TAG_INT_ARRAY then
    match tag.payload with
    | .int_array size ints =>
      if !malloc_ok then some (NBT_ERR_MEMORY, tag) else
      value.as_int.bind fun v =>
      (insert_copy sizeof_nbt_int ints ((to_size_t size + 1) % 2 ^ 64) tag.position v).map
        fun copy =>
        (1, (tag.with_payload
          (.int_array (to_int ((to_size_t size + 1) % 2 ^ 64)) (some copy))).with_position
          (tag.position + 1))
    | _ => none
  else if tag.id = NBT_TAG_COMPOUND then
    match tag.payload with
    | .compound tags =>
      (nbt_get_length (some tag)).bind fun length =>
      if !malloc_ok then some (NBT_ERR_MEMORY, tag) else
      value.as_tag.bind fun v =>
      (insert_copy sizeof_nbt_tag tags ((length + 1) % 2 ^ 64) tag.position v).map fun copy =>
        (1, (tag.with_payload (.compound (some copy))).with_position (tag.position + 1))
    | _ => none
  else some (NBT_ERR_INVALID_TYPE, tag)

/-- The `memmove` call of `delete`. `unit_size` is the stride, `length` the
length before the removal. `elem_pos` is the `int` of the source, `count` the
byte count, computed in `size_t`. The bytes after the element at the offset
move down by one stride, the rest of the buffer stays. `none` when the offset
is negative or the call leaves the block, and for an offset inside an element
as in `insert_copy`. -/
def delete_move {α : Type} (unit_size : Nat) (orig : Option (List α))
    (length position : Nat) : Option (List α) :=
  let old := orig.getD []
  let elem_pos := to_int (unit_size * position)
  let count := to_size_t ((length : Int) * unit_size - (elem_pos + unit_size))
  if 0 ≤ elem_pos ∧ elem_pos.toNat % unit_size = 0 ∧ count % unit_size = 0 ∧
      elem_pos.toNat + unit_size + count ≤ old.length * unit_size then
    some (old.take (elem_pos.toNat / unit_size) ++
      (old.drop (elem_pos.toNat / unit_size + 1)).take (count / unit_size) ++
      old.drop (elem_pos.toNat / unit_size + count / unit_size))
  else none

/-- The call `realloc(*origp, --length * unit_size)` of `delete` on the buffer
left by `memmove`; `length` is the length after `--length`. The result tells
whether the call returns a block, and gives the block the buffer field
addresses afterwards. For the size 0 the block is released and the null pointer
returned: the field keeps the address of the released block, a block of no
element. When `realloc` returns no block the old block stays as it is. -/
def delete_realloc {α : Type} (realloc_ok : Bool) (unit_size : Nat) (moved : List α)
    (length : Nat) : Bool × List α :=
  if length * unit_size % 2 ^ 64 = 0 then (false, [])
  else if !realloc_ok then (false, moved)
  else (true, moved.take (length * unit_size % 2 ^ 64 / unit_size))

/-- The cursor update at the end of `delete`. -/
def delete_position (position : Nat) : Nat :=
  if position ≠ 0 then position - 1 else position

/-- The function `delete`; `realloc_ok` tells whether `realloc` returns a
block when it is asked for one of a size above 0. The macro
`GET_MUL_ATTRIBUTES` is expanded in place. When `realloc` returns the null
pointer the size field and the cursor stay as they are. For a Compound with
children the call `nbt_free` on the child slot releases a pointer into the
child buffer (at cursor 0 the buffer itself, which is used right after): no
defined result. -/
def delete (realloc_ok : Bool) (tag : nbt_tag) : Option (Int × nbt_tag) :=
  if tag.id = NBT_TAG_BYTE_ARRAY then
    match tag.payload with
    | .byte_array size bytes =>
      if to_size_t size = 0 then some (1, tag) else
      (delete_move sizeof_nbt_byte bytes (to_size_t size) tag.position).map fun moved =>
        let r := delete_realloc realloc_ok sizeof_nbt_byte moved (to_size_t size - 1)
        if r.1 then
          (1, (tag.with_payload
            (.byte_array (to_int (to_size_t size - 1)) (some r.2))).with_position
            (delete_position tag.position))
        else (NBT_ERR_MEMORY, tag.with_payload (.byte_array size (some r.2)))
    | _ => none
  else if tag.id = NBT_TAG_LIST then
    match tag.payload with
    | .list tag_id size tags =>
      if to_size_t size = 0 then some (1, tag) else
      (delete_move sizeof_nbt_payload tags (to_size_t size) tag.position).map fun moved =>
        let r := delete_realloc realloc_ok sizeof_nbt_payload moved (to_size_t size - 1)
        if r.1 then
          (1, (tag.with_payload
            (.list tag_id (to_int (to_size_t size - 1)) (some r.2))).with_position
            (delete_position tag.position))
        else (NBT_ERR_MEMORY, tag.with_payload (.list tag_id size (some r.2)))
    | _ => none
  else if tag.id = NBT_TAG_INT_ARRAY then
    match tag.payload with
    | .int_array size ints =>
      if to_size_t size = 0 then some (1, tag) else
      (delete_move sizeof_nbt_int ints (to_size_t size) tag.position).map fun moved =>
        let r := delete_realloc realloc_ok sizeof_nbt_int moved (to_size_t size - 1)
        if r.1 then
          (1, (tag.with_payload
            (.int_array (to_int (to_size_t size - 1)) (some r.2))).with_position
            (delete_position tag.position))
        else (NBT_ERR_MEMORY, tag.with_payload (.int_array size (some r.2)))
    | _ => none
  else if tag.id = NBT_TAG_COMPOUND then
    match tag.payload with
    | .compound _ =>
      (nbt_get_length (some tag)).bind fun length =>
      if length = 0 then some (1, tag) else none
    | _ => none
  else some (NBT_ERR_INVALID_TYPE, tag)

/-- The function `nbt_remove`. -/
def nbt_remove (realloc_ok : Bool) (tag : Option nbt_tag) : Option (Int × Option nbt_tag) :=
  match tag with
  | none => some (NBT_ERR_INVALID_ARG, none)
  | some t => (delete realloc_ok t).map fun r => (r.1, some r.2)

/-! ## Access through the pointer returned by `next_payload` -/

/-- The union a payload pointer addresses. The byte and int buffers hold no
union: no result there. -/
def load_payload (tag : nbt_tag) : Slot → Option nbt_payload
  | .self => some tag.payload
  | .list_at i =>
    match tag.payload with
    | .list _ _ (some ts) => ts.get? i
    | _ => none
  | .child_at i =>
    match tag.payload with
    | .compound (some ts) => (ts.get? i).map nbt_tag.payload
    | _ => none
  | _ => none

/-- The assignment of a whole union through a payload pointer. -/
def store_payload (tag : nbt_tag) : Slot → nbt_payload → Option nbt_tag
  | .self, p => some (tag.with_payload p)
  | .list_at i, p =>
    match tag.payload with
    | .list k n (some ts) =>
      if i < ts.length then some (tag.with_payload (.list k n (some (ts.set i p)))) else none
    | _ => none
  | .child_at i, p =>
    match tag.payload with
    | .compound (some ts) =>
      (ts.get? i).map fun child =>
        tag.with_payload (.compound (some (ts.set i (child.with_payload p))))
    | _ => none
  | _, _ => none

/-- The eight bytes of the scalar members, when a scalar is stored. -/
def scalar_bits : nbt_payload → Option Nat
  | .scalar bits => some bits
  | _ => none

/-- The eight bytes of a 64-bit value, low-order byte first, each as an
`nbt_byte`. -/
def long_bytes (v : Int) : List Int :=
  (List.range 8).map fun k => of_bits 8 (to_bits 64 v / 2 ^ (8 * k))

/-- The two halves of a 64-bit value, low-order half first, each as an
`nbt_int`. -/
def long_ints (v : Int) : List Int :=
  [of_bits 32 (to_bits 64 v), of_bits 32 (to_bits 64 v / 2 ^ 32)]

/-- The assignment `p->long_payload = value`: eight bytes are written at `p`.
In a byte buffer they cover eight elements, in an int buffer two; `none` when
they do not fit in the buffer. -/
def store_long (tag : nbt_tag) (slot : Slot) (value : Int) : Option nbt_tag :=
  match slot with
  | .byte_at i =>
    match tag.payload with
    | .byte_array n (some bs) =>
      if i + 8 ≤ bs.length then
        some (tag.with_payload (.byte_array n (some (bs.take i ++ long_bytes value ++ bs.drop (i + 8)))))
      else none
    | _ => none
  | .int_at i =>
    match tag.payload with
    | .int_array n (some xs) =>
      if i + 2 ≤ xs.length then
        some (tag.with_payload (.int_array n (some (xs.take i ++ long_ints value ++ xs.drop (i + 2)))))
      else none
    | _ => none
  | s => store_payload tag s (.scalar (to_bits 64 value))

/-! ## Typed accessors -/

/-- The function `nbt_get_integer`: the value returned and the node after the
call. -/
def nbt_get_integer (tag : Option nbt_tag) : Option (Int × Option nbt_tag) :=
  match tag with
  | none => some (NBT_ERR_INVALID_ARG, none)
  | some t =>
    (next_payload t).bind fun r =>
      if r.2.id = NBT_TAG_BYTE then
        ((load_payload r.2 r.1).bind scalar_bits).map fun b => (of_bits 8 b, some r.2)
      else if r.2.id = NBT_TAG_SHORT then
        ((load_payload r.2 r.1).bind scalar_bits).map fun b => (of_bits 16 b, some r.2)
      else if r.2.id = NBT_TAG_INT then
        ((load_payload r.2 r.1).bind scalar_bits).map fun b => (of_bits 32 b, some r.2)
      else if r.2.id = NBT_TAG_LONG then
        ((load_payload r.2 r.1).bind scalar_bits).map fun b => (of_bits 64 b, some r.2)
      else some (0, some r.2)

/-- The function `nbt_set_integer`. -/
def nbt_set_integer (tag : Option nbt_tag) (value : Int) : Option (Int × Option nbt_tag) :=
  match tag with
  | none => some (NBT_ERR_INVALID_ARG, none)
  | some t =>
    (nbt_get_children_type (some t)).bind fun k =>
      if !NBT_IS_INTEGER k then some (NBT_ERR_INVALID_TYPE, some t) else
      (next_payload t).bind fun r =>
        (store_long r.2 r.1 value).map fun t2 => (1, some t2)

/-- The function `nbt_set_real`. A `double` is its 64-bit pattern; `to_float`
is the conversion `(float) value` on bit patterns. The float member is the
low-order four bytes of the scalar storage. -/
def nbt_set_real (to_float : Nat → Nat) (tag : Option nbt_tag) (value : Nat) :
    Option (Int × Option nbt_tag) :=
  match tag with
  | none => some (NBT_ERR_INVALID_ARG, none)
  | some t =>
    (nbt_get_children_type (some t)).bind fun k =>
      if !NBT_IS_REAL k then some (NBT_ERR_INVALID_TYPE, some t) else
      (next_payload t).bind fun r =>
        if r.2.id = NBT_TAG_FLOAT then
          ((load_payload r.2 r.1).bind scalar_bits).bind fun b =>
            (store_payload r.2 r.1 (.scalar (b / 2 ^ 32 * 2 ^ 32 + to_float value % 2 ^ 32))).map
              fun t2 => (1, some t2)
        else
          (store_payload r.2 r.1 (.scalar (value % 2 ^ 64))).map fun t2 => (1, some t2)

/-- The function `set_string`; `value` holds the characters before the
terminator, `realloc_ok` tells whether `realloc` returns a block when it is
asked for one. For an empty `value` and a string with a buffer the call is
`realloc(chars, 0)`: the buffer is released and the null pointer returned, the
field `chars` keeps the address of the released block, a block of no
character. -/
def set_string (realloc_ok : Bool) (payload : nbt_string) (value : Option (List Nat)) :
    Option (Int × nbt_string) :=
  match value with
  | none => none
  | some cs =>
    if cs.length = 0 ∧ payload.chars.isSome then
      some (NBT_ERR_MEMORY, ⟨payload.length, some []⟩)
    else if !realloc_ok then some (NBT_ERR_MEMORY, payload)
    else some (1, ⟨cs.length, some cs⟩)

/-- The string member of a union, when a string is stored. -/
def string_member : nbt_payload → Option nbt_string
  | .string s => some s
  | _ => none

/-- The function `nbt_set_string`. -/
def nbt_set_string (realloc_ok : Bool) (tag : Option nbt_tag) (value : Option (List Nat)) :
    Option (Int × Option nbt_tag) :=
  match tag with
  | none => some (NBT_ERR_INVALID_ARG, none)
  | some t =>
    (nbt_get_children_type (some t)).bind fun k =>
      if !NBT_IS_STRING k then some (NBT_ERR_INVALID_TYPE, some t) else
      (next_payload t).bind fun r =>
        ((load_payload r.2 r.1).bind string_member).bind fun s =>
          (set_string realloc_ok s value).bind fun w =>
            (store_payload r.2 r.1 (.string w.2)).map fun t2 => (w.1, some t2)

/-- The function `nbt_insert_integer`. -/
def nbt_insert_integer (malloc_ok : Bool) (tag : Option nbt_tag) (value : Int) :
    Option (Int × Option nbt_tag) :=
  match tag with
  | none => some (NBT_ERR_INVALID_ARG, none)
  | some t =>
    if value = 0 then some (NBT_ERR_INVALID_ARG, some t)
    else (insert malloc_ok t (.word (to_bits 64 value))).map fun r => (r.1, some r.2)

/-- The test `!value` on a `double` given by its 64-bit pattern: true for the
two zeros. -/
def double_is_zero (bits : Nat) : Bool :=
  bits % 2 ^ 63 == 0

/-- The function `nbt_insert_real`; the `double` is its 64-bit pattern. -/
def nbt_insert_real (malloc_ok : Bool) (tag : Option nbt_tag) (value : Nat) :
    Option (Int × Option nbt_tag) :=
  match tag with
  | none => some (NBT_ERR_INVALID_ARG, none)
  | some t =>
    if double_is_zero value then some (NBT_ERR_INVALID_ARG, some t)
    else (insert malloc_ok t (.word (value % 2 ^ 64))).map fun r => (r.1, some r.2)

/-- The function `nbt_insert_tag`. -/
def nbt_insert_tag (malloc_ok : Bool) (tag : Option nbt_tag) (value : Option nbt_tag) :
    Option (Int × Option nbt_tag) :=
  match tag, value with
  | some t, some v => (insert malloc_ok t (.node v)).map fun r => (r.1, some r.2)
  | some t, none => some (NBT_ERR_INVALID_ARG, some t)
  | none, _ => some (NBT_ERR_INVALID_ARG, none)

/-- The function `nbt_set_type`: only the field `id` is assigned. -/
def nbt_set_type (tag : Option nbt_tag) (value : Int) : Int × Option nbt_tag :=
  match tag with
  | none => (NBT_ERR_INVALID_ARG, none)
  | some t =>
    if value < NBT_TAG_END ∨ value > NBT_TAG_INT_ARRAY then (NBT_ERR_INVALID_ARG, some t)
    else (1, some (.mk value t.payload t.position t.name))

/-- The function `nbt_set_children_type`. On a ByteArray or IntArray the three
members of the list payload are assigned, whatever the union held. -/
def nbt_set_children_type (tag : Option nbt_tag) (value : Int) :
    Option (Int × Option nbt_tag) :=
  match tag with
  | none => some (NBT_ERR_INVALID_ARG, none)
  | some t =>
    if t.id = NBT_TAG_BYTE_ARRAY ∨ t.id = NBT_TAG_INT_ARRAY then
      some (1, some (.mk NBT_TAG_LIST (.list value 0 none) t.position t.name))
    else if t.id ≠ NBT_TAG_LIST then some (NBT_ERR_INVALID_TYPE, some t)
    else
      (nbt_get_length (some t)).bind fun len =>
        if len ≤ 0 then
          match t.payload with
          | .list _ size tags => some (1, some (t.with_payload (.list value size tags)))
          | _ => none
        else some (NBT_ERR_NONEMPTY, some t)

/-- A `double` result, by the expression that produces it: an integer constant
converted to `double`, a `float` member converted to `double`, or a `double`
member. -/
inductive nbt_double where
  | of_int (i : Int)
  | of_float (bits : Nat)
  | of_double (bits : Nat)
  deriving DecidableEq, Repr

/-- The function `nbt_get_real`. -/
def nbt_get_real (tag : Option nbt_tag) : Option (nbt_double × Option nbt_tag) :=
  match tag with
  | none => some (.of_int NBT_ERR_INVALID_ARG, none)
  | some t =>
    (next_payload t).bind fun r =>
      if r.2.id = NBT_TAG_FLOAT then
        ((load_payload r.2 r.1).bind scalar_bits).map fun b =>
          (.of_float (b % 2 ^ 32), some r.2)
      else if r.2.id = NBT_TAG_DOUBLE then
        ((load_payload r.2 r.1).bind scalar_bits).map fun b =>
          (.of_double (b % 2 ^ 64), some r.2)
      else some (.of_int 0, some r.2)

/-- The function `nbt_get_string`: the pointer `chars` of the string member at
the cursor, given by the buffer it points to (`none` is the null pointer), and
the node after the call. There is no test of the kind. -/
def nbt_get_string (tag : Option nbt_tag) : Option (Option (List Nat) × Option nbt_tag) :=
  match tag with
  | none => some (none, none)
  | some t =>
    (next_payload t).bind fun r =>
      ((load_payload r.2 r.1).bind string_member).map fun s => (s.chars, some r.2)

/-- The function `nbt_get_tag`: the index of the child the result points to
(`none` is the null pointer), and the node after the call. -/
def nbt_get_tag (tag : Option nbt_tag) : Option (Option Nat × Option nbt_tag) :=
  match tag with
  | none => some (none, none)
  | some t =>
    if t.id ≠ NBT_TAG_COMPOUND then some (none, some t)
    else (next_tag t).map fun r => (some r.1, some r.2)

/-- The value `v mod 2^w` read as a signed `w`-bit number: what narrowing a
value to `w` bits and extending it back with its sign gives. -/
def narrow (w : Nat) (v : Int) : Int :=
  if v % (2 : Int) ^ w < (2 : Int) ^ (w - 1) then v % (2 : Int) ^ w
  else v % (2 : Int) ^ w - (2 : Int) ^ w

/-! ## Teardown and the calls of the allocator -/

/-- A block of the heap that belongs to a tree: the block of the root node
itself, the character buffer of the name of a node, or the payload buffer of a
node. A node is given by its path, the child indices that lead to it from the
root. The child with index `i` of the node at `path` lies inside the payload
buffer of that node, at offset `i`. -/
inductive Block where
  | node
  | name (path : List Nat)
  | buffer (path : List Nat)
  deriving DecidableEq, Repr

/-- A call `free(p)` or `realloc(p, size)`; the pointer `p` is a block and an
offset in it, counted in elements. -/
inductive Event where
  | free (b : Block) (offset : Nat)
  | realloc (b : Block) (offset : Nat)
  deriving DecidableEq, Repr

mutual
/-- The function `nbt_free_children` on the node at `path`: the calls of `free`
it makes, in order. On a Compound without child buffer the loop reads the kind
of a child through the null pointer: no defined result. -/
def nbt_free_children (path : List Nat) : nbt_tag → Option (List Event)
  | .mk id payload _ name =>
    if id = NBT_TAG_BYTE_ARRAY then
      match payload with
      | .byte_array _ bytes =>
        some ((if name.chars.isSome then [Event.free (.name path) 0] else []) ++
          (if bytes.isSome then [Event.free (.buffer path) 0] else []))
      | _ => none
    else if id = NBT_TAG_STRING then
      match payload with
      | .string str =>
        some ((if name.chars.isSome then [Event.free (.name path) 0] else []) ++
          (if str.chars.isSome then [Event.free (.buffer path) 0] else []))
      | _ => none
    else if id = NBT_TAG_LIST then
      match payload with
      | .list _ _ tags =>
        some ((if name.chars.isSome then [Event.free (.name path) 0] else []) ++
          (if tags.isSome then [Event.free (.buffer path) 0] else []))
      | _ => none
    else if id = NBT_TAG_COMPOUND then
      match payload with
      | .compound (some ts) =>
        (free_until_end path 0 ts).map fun evs =>
          (if name.chars.isSome then [Event.free (.name path) 0] else []) ++ evs ++
            [Event.free (.buffer path) 0]
      | _ => none
    else if id = NBT_TAG_INT_ARRAY then
      match payload with
      | .int_array _ ints =>
        some ((if name.chars.isSome then [Event.free (.name path) 0] else []) ++
          (if ints.isSome then [Event.free (.buffer path) 0] else []))
      | _ => none
    else some (if name.chars.isSome then [Event.free (.name path) 0] else [])
/-- The loop of `nbt_free_children` over the children of a Compound, from the
child with index `i` on, up to the End entry; `none` when the buffer has no End
entry and the loop runs off its end. -/
def free_until_end (path : List Nat) (i : Nat) : List nbt_tag → Option (List Event)
  | [] => none
  | t :: ts =>
    if t.id = NBT_TAG_END then some []
    else
      (nbt_free_children (path ++ [i]) t).bind fun a =>
        (free_until_end path (i + 1) ts).map fun b => a ++ b
end

/-- The function `nbt_free` on the node at `path`, whose address is the block
`b` at `offset`: the calls of `nbt_free_children`, then `free` of the node. -/
def nbt_free (b : Block) (offset : Nat) (path : List Nat) (tag : nbt_tag) :
    Option (List Event) :=
  (nbt_free_children path tag).map fun evs => evs ++ [Event.free b offset]

/-- The calls of `free` and `realloc` made by `delete` on the root node, in
order; the results of `delete` itself are in the function of that name. -/
def delete_events (tag : nbt_tag) : Option (List Event) :=
  if tag.id = NBT_TAG_BYTE_ARRAY then
    match tag.payload with
    | .byte_array size bytes =>
      if to_size_t size = 0 then some [] else
      (delete_move sizeof_nbt_byte bytes (to_size_t size) tag.position).map fun _ =>
        [Event.realloc (.buffer []) 0]
    | _ => none
  else if tag.id = NBT_TAG_LIST then
    match tag.payload with
    | .list _ size tags =>
      if to_size_t size = 0 then some [] else
      (delete_move sizeof_nbt_payload tags (to_size_t size) tag.position).map fun _ =>
        [Event.realloc (.buffer []) 0]
    | _ => none
  else if tag.id = NBT_TAG_INT_ARRAY then
    match tag.payload with
    | .int_array size ints =>
      if to_size_t size = 0 then some [] else
      (delete_move sizeof_nbt_int ints (to_size_t size) tag.position).map fun _ =>
        [Event.realloc (.buffer []) 0]
    | _ => none
  else if tag.id = NBT_TAG_COMPOUND then
    match tag.payload with
    | .compound tags =>
      (nbt_get_length (some tag)).bind fun length =>
      if length = 0 then some [] else
      if 0 ≤ to_int (sizeof_nbt_tag * tag.position) ∧
          (to_int (sizeof_nbt_tag * tag.position)).toNat % sizeof_nbt_tag = 0 then
        ((tags.getD []).get?
            ((to_int (sizeof_nbt_tag * tag.position)).toNat / sizeof_nbt_tag)).bind fun child =>
          (nbt_free (.buffer [])
              ((to_int (sizeof_nbt_tag * tag.position)).toNat / sizeof_nbt_tag)
              [(to_int (sizeof_nbt_tag * tag.position)).toNat / sizeof_nbt_tag] child).map
            fun evs => evs ++ [Event.realloc (.buffer []) 0]
      else none
    | _ => none
  else some []

/-- Soundness of a trace of allocator calls for a set of live blocks: every
call gets the start of a block that is live, and `free` ends the life of its
block. -/
def trace_ok : List Block → List Event → Bool
  | _, [] => true
  | live, .free b offset :: evs =>
    offset == 0 && live.contains b && trace_ok (live.erase b) evs
  | live, .realloc b offset :: evs =>
    offset == 0 && live.contains b && trace_ok live evs

/-! ## Sequences of operations -/

/-- One call on a node: `nbt_insert_integer` with a value, `nbt_remove`, or
`nbt_set_position` with a cursor. -/
inductive Op where
  | ins (value : Int)
  | rem
  | seek (p : Nat)
  deriving DecidableEq, Repr

/-- The node after one call, allocations succeeding; `none` when the call has
no defined result. -/
def step (t : nbt_tag) : Op → Option nbt_tag
  | .ins v => (nbt_insert_integer true (some t) v).bind fun r => r.2
  | .rem => (nbt_remove true (some t)).bind fun r => r.2
  | .seek p => (nbt_set_position (some t) p).2

/-- The node after a sequence of calls. -/
def run : List Op → nbt_tag → Option nbt_tag
  | [], t => some t
  | op :: ops, t => (step t op).bind (run ops)

/-- A value below `2 ^ 31` converts to `int` unchanged. -/
theorem to_int_of_lt (x : Nat) (h : x < 2 ^ 31) : to_int x = (x : Int) := by
  unfold to_int of_bits
  have h1 : x % 2 ^ 32 = x := Nat.mod_eq_of_lt (by omega)
  rw [h1, if_pos (by omega)]

/-- A natural number below `2 ^ 64` converts to `size_t` unchanged. -/
theorem to_size_t_natCast (x : Nat) (h : x < 2 ^ 64) : to_size_t (x : Int) = x := by
  unfold to_size_t to_bits
  omega

/-- The copies of `insert` with the offset and the sizes in range: the new
buffer is the old one with `v` spliced in at the cursor. -/
theorem insert_copy_in_range {α : Type} (u : Nat) (hu : 0 < u) (buf : Option (List α))
    (n c : Nat) (v : α) (hlen : (buf.getD []).length = n) (hc : c ≤ n)
    (hoff : u * c < 2 ^ 31) (hn : (n + 1) * u < 2 ^ 64) :
    insert_copy u buf (n + 1) c v =
      some ((buf.getD []).take c ++ [v] ++ (buf.getD []).drop c) := by
  have he : to_int (u * c) = ((u * c : Nat) : Int) := to_int_of_lt _ hoff
  have hle : (n - c) * u ≤ (n + 1) * u := Nat.mul_le_mul_right _ (by omega)
  have hr : to_size_t ((((n + 1 : Nat) : Int) - 1) * (u : Int) - ((u * c : Nat) : Int)) =
      (n - c) * u := by
    have h1 : (((n + 1 : Nat) : Int) - 1) * (u : Int) - ((u * c : Nat) : Int) =
        (((n - c) * u : Nat) : Int) := by
      push_cast [Nat.cast_sub hc]
      ring
    rw [h1]
    exact to_size_t_natCast _ (by omega)
  have hsum : u * c + (n - c) * u = n * u := by
    rw [Nat.mul_comm u c, ← Nat.add_mul]
    congr 1
    omega
  have hmod : (n + 1) * u % 2 ^ 64 = (n + 1) * u := Nat.mod_eq_of_lt hn
  have htake : ((buf.getD []).drop c).take (n - c) = (buf.getD []).drop c := by
    apply List.take_of_length_le
    simp [hlen]
  have hcond : 0 ≤ ((u * c : Nat) : Int) ∧ ((u * c : Nat) : Int).toNat % u = 0 ∧
      (n - c) * u % u = 0 ∧
      ((u * c : Nat) : Int).toNat + (n - c) * u ≤ (buf.getD []).length * u ∧
      ((u * c : Nat) : Int).toNat + u + (n - c) * u ≤ (n + 1) * u % 2 ^ 64 := by
    rw [Int.toNat_natCast, hmod, hlen]
    refine ⟨Int.natCast_nonneg _, Nat.mul_mod_right _ _, Nat.mul_mod_left _ _, ?_, ?_⟩
    · omega
    · rw [Nat.add_mul]
      omega
  unfold insert_copy
  simp only [he, hr]
  rw [if_pos hcond, Int.toNat_natCast, Nat.mul_div_cancel_left _ hu,
    Nat.mul_div_cancel _ hu, htake]

/-- With a negative offset the first copy of `insert` leaves the buffers. -/
theorem insert_copy_negative_offset {α : Type} (u : Nat) (buf : Option (List α))
    (length c : Nat) (v : α) (h : to_int (u * c) < 0) :
    insert_copy u buf length c v = none := by
  unfold insert_copy
  simp only []
  rw [if_neg]
  intro hh
  exact absurd hh.1 (by omega)

/-- The splice of `insert` on a ByteArray node; the size field gets the new
length converted to `nbt_int`. -/
theorem insert_byte_array_at_cursor (n c : Nat) (hc : c ≤ n) (hn : n < 2 ^ 31)
    (buf : Option (List Int)) (hlen : (buf.getD []).length = n) (name : nbt_string)
    (value : Obj) (v : Int) (hv : value.as_byte = some v) :
    insert true (.mk NBT_TAG_BYTE_ARRAY (.byte_array (n : Int) buf) c name) value =
      some (1, .mk NBT_TAG_BYTE_ARRAY
        (.byte_array (to_int (n + 1)) (some ((buf.getD []).take c ++ [v] ++ (buf.getD []).drop c)))
        (c + 1) name) := by
  have hs : to_size_t (n : Int) = n := to_size_t_natCast n (by omega)
  have hl : (n + 1) % 2 ^ 64 = n + 1 := Nat.mod_eq_of_lt (by omega)
  have hcopy := insert_copy_in_range sizeof_nbt_byte (by decide) buf n c v hlen hc
    (by show 1 * c < 2 ^ 31; omega) (by show (n + 1) * 1 < 2 ^ 64; omega)
  simp only [insert, nbt_tag.id, nbt_tag.payload, nbt_tag.position, nbt_tag.with_payload,
    nbt_tag.with_position, nbt_tag.name, hs, hl, hv, hcopy]
  simp [hcopy]

/-- The splice of `insert` on an IntArray node. -/
theorem insert_int_array_at_cursor (n c : Nat) (hc : c ≤ n) (hn : n < 2 ^ 31)
    (hoff : sizeof_nbt_int * c < 2 ^ 31)
    (buf : Option (List Int)) (hlen : (buf.getD []).length = n) (name : nbt_string)
    (value : Obj) (v : Int) (hv : value.as_int = some v) :
    insert true (.mk NBT_TAG_INT_ARRAY (.int_array (n : Int) buf) c name) value =
      some (1, .mk NBT_TAG_INT_ARRAY
        (.int_array (to_int (n + 1)) (some ((buf.getD []).take c ++ [v] ++ (buf.getD []).drop c)))
        (c + 1) name) := by
  have hs : to_size_t (n : Int) = n := to_size_t_natCast n (by omega)
  have hl : (n + 1) % 2 ^ 64 = n + 1 := Nat.mod_eq_of_lt (by omega)
  have hcopy := insert_copy_in_range sizeof_nbt_int (by decide) buf n c v hlen hc hoff
    (by show (n + 1) * 4 < 2 ^ 64; omega)
  simp only [insert, nbt_tag.id, nbt_tag.payload, nbt_tag.position, nbt_tag.with_payload,
    nbt_tag.with_position, nbt_tag.name, hs, hl, hv, hcopy]
  simp [hcopy]

/-- The splice of `insert` on a List node, for a value that is a whole
payload. -/
theorem insert_list_at_cursor (n c : Nat) (hc : c ≤ n) (hn : n < 2 ^ 31)
    (hoff : sizeof_nbt_payload * c < 2 ^ 31) (k : Int)
    (buf : Option (List nbt_payload)) (hlen : (buf.getD []).length = n) (name : nbt_string)
    (value : Obj) (v : nbt_payload) (hv : value.as_payload = some v) :
    insert true (.mk NBT_TAG_LIST (.list k (n : Int) buf) c name) value =
      some (1, .mk NBT_TAG_LIST
        (.list k (to_int (n + 1)) (some ((buf.getD []).take c ++ [v] ++ (buf.getD []).drop c)))
        (c + 1) name) := by
  have hs : to_size_t (n : Int) = n := to_size_t_natCast n (by omega)
  have hl : (n + 1) % 2 ^ 64 = n + 1 := Nat.mod_eq_of_lt (by omega)
  have hcopy := insert_copy_in_range sizeof_nbt_payload (by decide) buf n c v hlen hc hoff
    (by show (n + 1) * 16 < 2 ^ 64; omega)
  simp only [insert, nbt_tag.id, nbt_tag.payload, nbt_tag.position, nbt_tag.with_payload,
    nbt_tag.with_position, nbt_tag.name, hs, hl, hv, hcopy]
  simp [hcopy]

/-- On an IntArray node whose byte offset does not fit in an `int`, `insert`
has no defined result. -/
theorem insert_int_array_negative_offset (n : Int) (buf : Option (List Int)) (c : Nat)
    (name : nbt_string) (value : Obj) (h : to_int (sizeof_nbt_int * c) < 0) :
    insert true (.mk NBT_TAG_INT_ARRAY (.int_array n buf) c name) value = none := by
  have hcopy := fun (length : Nat) (v : Int) =>
    insert_copy_negative_offset sizeof_nbt_int buf length c v h
  cases hv : value.as_int <;>
    simp [insert, nbt_tag.id, nbt_tag.payload, nbt_tag.position, hv, hcopy]

/-- C1, amended. On a ByteArray, IntArray or List node that holds `n` elements
(size field `n`), with the cursor at `c ≤ n`, the new length `n + 1` within the
range of `nbt_int` and the byte offset of the cursor within the range of `int`,
`insert` of an element `v` returns 1 when `malloc` returns a block; the node
then holds the first `c` elements, `v`, and the remaining `n - c` elements, its
size field is `n + 1` and its cursor `c + 1`; kind, name and children kind are
unchanged. -/
theorem insert_splices_at_cursor (n c : Nat) (hc : c ≤ n) (hn : n + 1 < 2 ^ 31)
    (name : nbt_string) (value : Obj) :
    (∀ (buf : Option (List Int)) (v : Int), (buf.getD []).length = n →
        value.as_byte = some v →
        insert true (.mk NBT_TAG_BYTE_ARRAY (.byte_array n buf) c name) value =
          some (1, .mk NBT_TAG_BYTE_ARRAY
            (.byte_array (n + 1) (some ((buf.getD []).take c ++ [v] ++ (buf.getD []).drop c)))
            (c + 1) name)) ∧
    (sizeof_nbt_int * c < 2 ^ 31 →
      ∀ (buf : Option (List Int)) (v : Int), (buf.getD []).length = n →
        value.as_int = some v →
        insert true (.mk NBT_TAG_INT_ARRAY (.int_array n buf) c name) value =
          some (1, .mk NBT_TAG_INT_ARRAY
            (.int_array (n + 1) (some ((buf.getD []).take c ++ [v] ++ (buf.getD []).drop c)))
            (c + 1) name)) ∧
    (sizeof_nbt_payload * c < 2 ^ 31 →
      ∀ (k : Int) (buf : Option (List nbt_payload)) (v : nbt_payload),
        (buf.getD []).length = n → value.as_payload = some v →
        insert true (.mk NBT_TAG_LIST (.list k n buf) c name) value =
          some (1, .mk NBT_TAG_LIST
            (.list k (n + 1) (some ((buf.getD []).take c ++ [v] ++ (buf.getD []).drop c)))
            (c + 1) name)) := by
  have hsize : to_int (n + 1) = (n : Int) + 1 := by
    rw [to_int_of_lt (n + 1) hn]
    push_cast
    rfl
  refine ⟨?_, ?_, ?_⟩
  · intro buf v hlen hv
    rw [insert_byte_array_at_cursor n c hc (by omega) buf hlen name value v hv, hsize]
  · intro hoff buf v hlen hv
    rw [insert_int_array_at_cursor n c hc (by omega) hoff buf hlen name value v hv, hsize]
  · intro hoff k buf v hlen hv
    rw [insert_list_at_cursor n c hc (by omega) hoff k buf hlen name value v hv, hsize]

/-- C1, amended, at concrete nodes: a value spliced into the middle of a byte
array, at the end of an int array, and a payload into an empty list without a
buffer. -/
theorem insert_splices_at_cursor_witness :
    insert true (.mk NBT_TAG_BYTE_ARRAY (.byte_array 2 (some [1, 2])) 1 ⟨0, none⟩) (.word 7) =
      some (1, .mk NBT_TAG_BYTE_ARRAY (.byte_array 3 (some [1, 7, 2])) 2 ⟨0, none⟩) ∧
    insert true (.mk NBT_TAG_INT_ARRAY (.int_array 2 (some [1, 2])) 2 ⟨0, none⟩) (.word 7) =
      some (1, .mk NBT_TAG_INT_ARRAY (.int_array 3 (some [1, 2, 7])) 3 ⟨0, none⟩) ∧
    insert true (.mk NBT_TAG_LIST (.list NBT_TAG_INT 0 none) 0 ⟨0, none⟩)
        (.payload (.scalar 7)) =
      some (1, .mk NBT_TAG_LIST (.list NBT_TAG_INT 1 (some [.scalar 7])) 1 ⟨0, none⟩) :=
  ⟨(insert_splices_at_cursor 2 1 (by decide) (by decide) ⟨0, none⟩ (.word 7)).1
     (some [1, 2]) 7 rfl rfl,
   (insert_splices_at_cursor 2 2 (by decide) (by decide) ⟨0, none⟩ (.word 7)).2.1 (by decide)
     (some [1, 2]) 7 rfl rfl,
   (insert_splices_at_cursor 0 0 (by decide) (by decide) ⟨0, none⟩
     (.payload (.scalar 7))).2.2 (by decide) NBT_TAG_INT none (.scalar 7) rfl rfl⟩

/-- C1 as stated fails at the limits of the integer types. On a byte array of
`2 ^ 31 - 1` elements `insert` returns 1 and the size field, an `nbt_int`, gets
`2 ^ 31` converted: `-2 ^ 31`, not `n + 1`. On an int array of `2 ^ 29`
elements with the cursor at the end the byte offset `4 * 2 ^ 29` becomes the
`int` `-2 ^ 31` and the first `memcpy` gets the count `2 ^ 64 - 2 ^ 31`: no
defined result. -/
theorem insert_wraps_size_and_offset :
    insert true (.mk NBT_TAG_BYTE_ARRAY
        (.byte_array 2147483647 (some (List.replicate 2147483647 0))) 0 ⟨0, none⟩) (.word 7) =
      some (1, .mk NBT_TAG_BYTE_ARRAY
        (.byte_array (-2147483648) (some (7 :: List.replicate 2147483647 0))) 1 ⟨0, none⟩) ∧
    insert true (.mk NBT_TAG_INT_ARRAY
        (.int_array 536870912 (some (List.replicate 536870912 0))) 536870912 ⟨0, none⟩)
        (.word 7) = none := by
  refine ⟨?_, ?_⟩
  · have h := insert_byte_array_at_cursor 2147483647 0 (Nat.zero_le _) (by decide)
      (some (List.replicate 2147483647 0)) (List.length_replicate _ _) ⟨0, none⟩ (.word 7) 7 rfl
    have hsize : to_int (2147483647 + 1) = -2147483648 := by decide
    rw [hsize] at h
    exact h
  · exact insert_int_array_negative_offset 536870912 _ 536870912 _ _ (by decide)

/-- The `memmove` of `delete` with the offset and the sizes in range: the
element at the cursor is overwritten by the ones after it, the last slot keeps
its old content. -/
theorem delete_move_in_range {α : Type} (u : Nat) (hu : 0 < u) (es : List α) (n c : Nat)
    (hlen : es.length = n) (hc : c < n) (hoff : u * c < 2 ^ 31) (hn : n * u < 2 ^ 64) :
    delete_move u (some es) n c = some (es.eraseIdx c ++ es.drop (n - 1)) := by
  have he : to_int (u * c) = ((u * c : Nat) : Int) := to_int_of_lt _ hoff
  have hle : (n - (c + 1)) * u ≤ n * u := Nat.mul_le_mul_right _ (by omega)
  have hr : to_size_t (((n : Nat) : Int) * (u : Int) - (((u * c : Nat) : Int) + (u : Int))) =
      (n - (c + 1)) * u := by
    have h1 : ((n : Nat) : Int) * (u : Int) - (((u * c : Nat) : Int) + (u : Int)) =
        (((n - (c + 1)) * u : Nat) : Int) := by
      push_cast [Nat.cast_sub (show c + 1 ≤ n from hc)]
      ring
    rw [h1]
    exact to_size_t_natCast _ (by omega)
  have hsum : u * c + u + (n - (c + 1)) * u = n * u := by
    have h2 : u * c + u = (c + 1) * u := by rw [Nat.add_mul, Nat.one_mul, Nat.mul_comm u c]
    rw [h2, ← Nat.add_mul]
    congr 1
    omega
  have htake : (es.drop (c + 1)).take (n - (c + 1)) = es.drop (c + 1) := by
    apply List.take_of_length_le
    simp [hlen]
  have hcond : 0 ≤ ((u * c : Nat) : Int) ∧ ((u * c : Nat) : Int).toNat % u = 0 ∧
      (n - (c + 1)) * u % u = 0 ∧
      ((u * c : Nat) : Int).toNat + u + (n - (c + 1)) * u ≤
        ((some es : Option (List α)).getD []).length * u := by
    rw [Int.toNat_natCast, hsum]
    refine ⟨Int.natCast_nonneg _, Nat.mul_mod_right _ _, Nat.mul_mod_left _ _, ?_⟩
    simp [hlen]
  have hidx : c + (n - (c + 1)) = n - 1 := by omega
  unfold delete_move
  simp only [he, hr]
  rw [if_pos hcond, Int.toNat_natCast, Nat.mul_div_cancel_left _ hu, Nat.mul_div_cancel _ hu]
  simp only [Option.getD_some]
  rw [htake, hidx, List.eraseIdx_eq_take_drop_succ]

/-- With a negative offset the `memmove` of `delete` leaves the buffer. -/
theorem delete_move_negative_offset {α : Type} (u : Nat) (buf : Option (List α))
    (length c : Nat) (h : to_int (u * c) < 0) :
    delete_move u buf length c = none := by
  unfold delete_move
  simp only []
  rw [if_neg]
  intro hh
  exact absurd hh.1 (by omega)

/-- The call of `realloc` for a size above 0 that fits in `size_t`, a block
being returned: the first `m` elements are kept. -/
theorem delete_realloc_in_range {α : Type} (u : Nat) (hu : 0 < u) (moved : List α) (m : Nat)
    (hm : 0 < m) (hfit : m * u < 2 ^ 64) :
    delete_realloc true u moved m = (true, moved.take m) := by
  have hmod : m * u % 2 ^ 64 = m * u := Nat.mod_eq_of_lt hfit
  have hpos : m * u ≠ 0 := Nat.mul_ne_zero (by omega) (by omega)
  unfold delete_realloc
  rw [hmod, if_neg hpos, Nat.mul_div_cancel _ hu]
  rfl

/-- The buffer after `memmove` and `realloc` in range: the elements without
the one at the cursor. -/
theorem eraseIdx_append_take {α : Type} (es : List α) (n c : Nat) (hlen : es.length = n)
    (hc : c < n) : (es.eraseIdx c ++ es.drop (n - 1)).take (n - 1) = es.eraseIdx c := by
  have h1 : (es.eraseIdx c).length = n - 1 := by
    rw [List.length_eraseIdx, if_pos (by omega), hlen]
  rw [List.take_append_of_le_length (by omega)]
  exact List.take_of_length_le (by omega)

/-- The removal by `delete` on a ByteArray node of at least two elements. -/
theorem delete_byte_array_at_cursor (n c : Nat) (hn2 : 2 ≤ n) (hc : c < n) (hn : n < 2 ^ 31)
    (es : List Int) (hlen : es.length = n) (name : nbt_string) :
    delete true (.mk NBT_TAG_BYTE_ARRAY (.byte_array (n : Int) (some es)) c name) =
      some (1, .mk NBT_TAG_BYTE_ARRAY (.byte_array ((n : Int) - 1) (some (es.eraseIdx c)))
        (delete_position c) name) := by
  have hs : to_size_t (n : Int) = n := to_size_t_natCast n (by omega)
  have hn0 : n ≠ 0 := by omega
  have hsize : to_int (n - 1) = (n : Int) - 1 := by
    rw [to_int_of_lt (n - 1) (by omega)]
    omega
  have hmove := delete_move_in_range sizeof_nbt_byte (by decide) es n c hlen hc
    (by show 1 * c < 2 ^ 31; omega) (by show n * 1 < 2 ^ 64; omega)
  have hre := delete_realloc_in_range sizeof_nbt_byte (by decide)
    (es.eraseIdx c ++ es.drop (n - 1)) (n - 1) (by omega) (by show (n - 1) * 1 < 2 ^ 64; omega)
  simp only [delete, nbt_tag.id, nbt_tag.payload, nbt_tag.position, nbt_tag.with_payload,
    nbt_tag.with_position, nbt_tag.name, hs]
  simp [hn0, hmove, hre, hsize, eraseIdx_append_take es n c hlen hc]

/-- The removal by `delete` on an IntArray node of at least two elements. -/
theorem delete_int_array_at_cursor (n c : Nat) (hn2 : 2 ≤ n) (hc : c < n) (hn : n < 2 ^ 31)
    (hoff : sizeof_nbt_int * c < 2 ^ 31)
    (es : List Int) (hlen : es.length = n) (name : nbt_string) :
    delete true (.mk NBT_TAG_INT_ARRAY (.int_array (n : Int) (some es)) c name) =
      some (1, .mk NBT_TAG_INT_ARRAY (.int_array ((n : Int) - 1) (some (es.eraseIdx c)))
        (delete_position c) name) := by
  have hs : to_size_t (n : Int) = n := to_size_t_natCast n (by omega)
  have hn0 : n ≠ 0 := by omega
  have hsize : to_int (n - 1) = (n : Int) - 1 := by
    rw [to_int_of_lt (n - 1) (by omega)]
    omega
  have hmove := delete_move_in_range sizeof_nbt_int (by decide) es n c hlen hc hoff
    (by show n * 4 < 2 ^ 64; omega)
  have hre := delete_realloc_in_range sizeof_nbt_int (by decide)
    (es.eraseIdx c ++ es.drop (n - 1)) (n - 1) (by omega) (by show (n - 1) * 4 < 2 ^ 64; omega)
  simp only [delete, nbt_tag.id, nbt_tag.payload, nbt_tag.position, nbt_tag.with_payload,
    nbt_tag.with_position, nbt_tag.name, hs]
  simp [hn0, hmove, hre, hsize, eraseIdx_append_take es n c hlen hc]

/-- The removal by `delete` on a List node of at least two elements. -/
theorem delete_list_at_cursor (n c : Nat) (hn2 : 2 ≤ n) (hc : c < n) (hn : n < 2 ^ 31)
    (hoff : sizeof_nbt_payload * c < 2 ^ 31) (k : Int)
    (es : List nbt_payload) (hlen : es.length = n) (name : nbt_string) :
    delete true (.mk NBT_TAG_LIST (.list k (n : Int) (some es)) c name) =
      some (1, .mk NBT_TAG_LIST (.list k ((n : Int) - 1) (some (es.eraseIdx c)))
        (delete_position c) name) := by
  have hs : to_size_t (n : Int) = n := to_size_t_natCast n (by omega)
  have hn0 : n ≠ 0 := by omega
  have hsize : to_int (n - 1) = (n : Int) - 1 := by
    rw [to_int_of_lt (n - 1) (by omega)]
    omega
  have hmove := delete_move_in_range sizeof_nbt_payload (by decide) es n c hlen hc hoff
    (by show n * 16 < 2 ^ 64; omega)
  have hre := delete_realloc_in_range sizeof_nbt_payload (by decide)
    (es.eraseIdx c ++ es.drop (n - 1)) (n - 1) (by omega) (by show (n - 1) * 16 < 2 ^ 64; omega)
  simp only [delete, nbt_tag.id, nbt_tag.payload, nbt_tag.position, nbt_tag.with_payload,
    nbt_tag.with_position, nbt_tag.name, hs]
  simp [hn0, hmove, hre, hsize, eraseIdx_append_take es n c hlen hc]

/-- On an IntArray node whose byte offset does not fit in an `int`, `delete`
has no defined result. -/
theorem delete_int_array_negative_offset (n : Int) (hn : to_size_t n ≠ 0)
    (buf : Option (List Int)) (c : Nat) (name : nbt_string) (ok : Bool)
    (h : to_int (sizeof_nbt_int * c) < 0) :
    delete ok (.mk NBT_TAG_INT_ARRAY (.int_array n buf) c name) = none := by
  have hmove := fun (length : Nat) => delete_move_negative_offset sizeof_nbt_int buf length c h
  simp [delete, nbt_tag.id, nbt_tag.payload, nbt_tag.position, hn, hmove]

/-- With the sizes and the byte offset in range and at least two elements,
`nbt_remove` on a ByteArray, IntArray or List node with the cursor at `c < n`
returns 1 when `realloc` returns a block; the node then holds the elements
without the one at index `c`, in their order, its size field is `n - 1`, and
its cursor is `c - 1`, or 0 when `c = 0`. -/
theorem nbt_remove_erases_in_range (n c : Nat) (hn2 : 2 ≤ n) (hc : c < n) (hn : n < 2 ^ 31)
    (name : nbt_string) :
    (∀ es : List Int, es.length = n →
        nbt_remove true (some (.mk NBT_TAG_BYTE_ARRAY (.byte_array n (some es)) c name)) =
          some (1, some (.mk NBT_TAG_BYTE_ARRAY (.byte_array (n - 1) (some (es.eraseIdx c)))
            (if 0 < c then c - 1 else 0) name))) ∧
    (sizeof_nbt_int * c < 2 ^ 31 → ∀ es : List Int, es.length = n →
        nbt_remove true (some (.mk NBT_TAG_INT_ARRAY (.int_array n (some es)) c name)) =
          some (1, some (.mk NBT_TAG_INT_ARRAY (.int_array (n - 1) (some (es.eraseIdx c)))
            (if 0 < c then c - 1 else 0) name))) ∧
    (sizeof_nbt_payload * c < 2 ^ 31 → ∀ (k : Int) (es : List nbt_payload), es.length = n →
        nbt_remove true (some (.mk NBT_TAG_LIST (.list k n (some es)) c name)) =
          some (1, some (.mk NBT_TAG_LIST (.list k (n - 1) (some (es.eraseIdx c)))
            (if 0 < c then c - 1 else 0) name))) := by
  have hpos : delete_position c = if 0 < c then c - 1 else 0 := by
    unfold delete_position
    split <;> split <;> omega
  refine ⟨?_, ?_, ?_⟩
  · intro es hlen
    simp only [nbt_remove, delete_byte_array_at_cursor n c hn2 hc hn es hlen name, hpos,
      Option.map_some']
  · intro hoff es hlen
    simp only [nbt_remove, delete_int_array_at_cursor n c hn2 hc hn hoff es hlen name, hpos,
      Option.map_some']
  · intro hoff k es hlen
    simp only [nbt_remove, delete_list_at_cursor n c hn2 hc hn hoff k es hlen name, hpos,
      Option.map_some']

/-- The removal at concrete nodes: the first of three list elements, the
middle byte and the last int are removed. -/
theorem nbt_remove_erases_in_range_witness :
    nbt_remove true (some (.mk NBT_TAG_LIST
        (.list NBT_TAG_INT 3 (some [.scalar 10, .scalar 20, .scalar 30])) 0 ⟨0, none⟩)) =
      some (1, some (.mk NBT_TAG_LIST
        (.list NBT_TAG_INT 2 (some [.scalar 20, .scalar 30])) 0 ⟨0, none⟩)) ∧
    nbt_remove true (some (.mk NBT_TAG_BYTE_ARRAY (.byte_array 3 (some [1, 2, 3])) 1 ⟨0, none⟩)) =
      some (1, some (.mk NBT_TAG_BYTE_ARRAY (.byte_array 2 (some [1, 3])) 0 ⟨0, none⟩)) ∧
    nbt_remove true (some (.mk NBT_TAG_INT_ARRAY (.int_array 3 (some [1, 2, 3])) 2 ⟨0, none⟩)) =
      some (1, some (.mk NBT_TAG_INT_ARRAY (.int_array 2 (some [1, 2])) 1 ⟨0, none⟩)) :=
  ⟨(nbt_remove_erases_in_range 3 0 (by decide) (by decide) (by decide) ⟨0, none⟩).2.2
     (by decide) NBT_TAG_INT [.scalar 10, .scalar 20, .scalar 30] rfl,
   (nbt_remove_erases_in_range 3 1 (by decide) (by decide) (by decide) ⟨0, none⟩).1
     [1, 2, 3] rfl,
   (nbt_remove_erases_in_range 3 2 (by decide) (by decide) (by decide) ⟨0, none⟩).2.1
     (by decide) [1, 2, 3] rfl⟩

/-- C2, at the failing inputs. On a byte array that holds the one element 5,
with the cursor at 0, `nbt_remove` returns `NBT_ERR_MEMORY`, not 1, whatever
the allocator does for sizes above 0: the call is `realloc(bytes, 0)`, which
releases the buffer and returns the null pointer; the size field is still 1 and
the buffer field addresses the released block. On an int array of `2 ^ 29 + 1`
elements with the cursor at `2 ^ 29` the byte offset `4 * 2 ^ 29` becomes the
`int` `-2 ^ 31` and `memmove` is called on an address before the buffer: no
defined result. -/
theorem nbt_remove_fails_on_last_element :
    nbt_remove true (some (.mk NBT_TAG_BYTE_ARRAY (.byte_array 1 (some [5])) 0 ⟨0, none⟩)) =
      some (NBT_ERR_MEMORY,
        some (.mk NBT_TAG_BYTE_ARRAY (.byte_array 1 (some [])) 0 ⟨0, none⟩)) ∧
    nbt_remove false (some (.mk NBT_TAG_BYTE_ARRAY (.byte_array 1 (some [5])) 0 ⟨0, none⟩)) =
      some (NBT_ERR_MEMORY,
        some (.mk NBT_TAG_BYTE_ARRAY (.byte_array 1 (some [])) 0 ⟨0, none⟩)) ∧
    nbt_remove true (some (.mk NBT_TAG_INT_ARRAY
        (.int_array 536870913 (some (List.replicate 536870913 0))) 536870912 ⟨0, none⟩)) =
      none := by
  refine ⟨rfl, rfl, ?_⟩
  have h := delete_int_array_negative_offset 536870913 (by decide)
    (some (List.replicate 536870913 0)) 536870912 ⟨0, none⟩ true (by decide)
  simp only [nbt_remove, h, Option.map_none']

/-- Moving the cursor changes neither the kind nor the payload, hence not the
length. -/
theorem nbt_get_length_with_position (t : nbt_tag) (p : Nat) :
    nbt_get_length (some (t.with_position p)) = nbt_get_length (some t) := by
  cases t
  rfl

/-- C6. On a node of a multi-valued kind with logical length `n ≥ 1`, after
`nbt_set_position` to `p`, `next_payload` (and `next_tag` on a Compound)
addresses the element of index 0 and leaves the cursor at 1 when `p ≥ n`, and
addresses the element of index `p` and leaves the cursor at `p + 1` when
`p < n`. (The bound `n ≥ 1` is not needed for the cursor arithmetic.) -/
theorem cursor_wraps_to_first_element (t : nbt_tag) (n p : Nat)
    (hlen : nbt_get_length (some t) = some n) :
    (nbt_set_position (some t) p).2 = some (t.with_position p) ∧
    (t.id = NBT_TAG_BYTE_ARRAY →
      next_payload (t.with_position p) =
        some (.byte_at (if n ≤ p then 0 else p),
          t.with_position ((if n ≤ p then 0 else p) + 1))) ∧
    (t.id = NBT_TAG_LIST →
      next_payload (t.with_position p) =
        some (.list_at (if n ≤ p then 0 else p),
          t.with_position ((if n ≤ p then 0 else p) + 1))) ∧
    (t.id = NBT_TAG_INT_ARRAY →
      next_payload (t.with_position p) =
        some (.int_at (if n ≤ p then 0 else p),
          t.with_position ((if n ≤ p then 0 else p) + 1))) ∧
    (t.id = NBT_TAG_COMPOUND →
      next_payload (t.with_position p) =
        some (.child_at (if n ≤ p then 0 else p),
          t.with_position ((if n ≤ p then 0 else p) + 1)) ∧
      next_tag (t.with_position p) =
        some ((if n ≤ p then 0 else p), t.with_position ((if n ≤ p then 0 else p) + 1))) := by
  have hl := nbt_get_length_with_position t p
  rw [hlen] at hl
  obtain ⟨id, payload, position, name⟩ := t
  replace hl : nbt_get_length (some (.mk id payload p name)) = some n := hl
  refine ⟨rfl, ?_, ?_, ?_, ?_⟩
  · intro hid
    simp only [nbt_tag.id] at hid
    subst hid
    simp [next_payload, hl, nbt_tag.with_position, nbt_tag.id, nbt_tag.payload,
      nbt_tag.position, nbt_tag.name]
  · intro hid
    simp only [nbt_tag.id] at hid
    subst hid
    simp [next_payload, hl, nbt_tag.with_position, nbt_tag.id, nbt_tag.payload,
      nbt_tag.position, nbt_tag.name]
  · intro hid
    simp only [nbt_tag.id] at hid
    subst hid
    simp [next_payload, hl, nbt_tag.with_position, nbt_tag.id, nbt_tag.payload,
      nbt_tag.position, nbt_tag.name]
  · intro hid
    simp only [nbt_tag.id] at hid
    subst hid
    refine ⟨?_, ?_⟩
    · simp [next_payload, hl, nbt_tag.with_position, nbt_tag.id, nbt_tag.payload,
        nbt_tag.position, nbt_tag.name]
    · cases payload <;>
        simp_all [next_tag, nbt_get_length, nbt_tag.with_position, nbt_tag.id,
          nbt_tag.payload, nbt_tag.position, nbt_tag.name]

/-- C6, at concrete nodes: on a list of three elements cursor 7 wraps to the
first element and cursor 1 addresses the second; on a Compound with one child
and its End entry cursor 5 wraps to the child. -/
theorem cursor_wraps_to_first_element_witness :
    next_payload (.mk NBT_TAG_LIST
        (.list NBT_TAG_INT 3 (some [.scalar 10, .scalar 20, .scalar 30])) 7 ⟨0, none⟩) =
      some (.list_at 0, .mk NBT_TAG_LIST
        (.list NBT_TAG_INT 3 (some [.scalar 10, .scalar 20, .scalar 30])) 1 ⟨0, none⟩) ∧
    next_payload (.mk NBT_TAG_LIST
        (.list NBT_TAG_INT 3 (some [.scalar 10, .scalar 20, .scalar 30])) 1 ⟨0, none⟩) =
      some (.list_at 1, .mk NBT_TAG_LIST
        (.list NBT_TAG_INT 3 (some [.scalar 10, .scalar 20, .scalar 30])) 2 ⟨0, none⟩) ∧
    next_tag (.mk NBT_TAG_COMPOUND
        (.compound (some [.mk NBT_TAG_INT (.scalar 5) 0 ⟨1, some [120]⟩,
          .mk NBT_TAG_END (.scalar 0) 0 ⟨0, none⟩])) 5 ⟨0, none⟩) =
      some (0, .mk NBT_TAG_COMPOUND
        (.compound (some [.mk NBT_TAG_INT (.scalar 5) 0 ⟨1, some [120]⟩,
          .mk NBT_TAG_END (.scalar 0) 0 ⟨0, none⟩])) 1 ⟨0, none⟩) :=
  ⟨(cursor_wraps_to_first_element (.mk NBT_TAG_LIST
      (.list NBT_TAG_INT 3 (some [.scalar 10, .scalar 20, .scalar 30])) 0 ⟨0, none⟩) 3 7
      rfl).2.2.1 rfl,
   (cursor_wraps_to_first_element (.mk NBT_TAG_LIST
      (.list NBT_TAG_INT 3 (some [.scalar 10, .scalar 20, .scalar 30])) 0 ⟨0, none⟩) 3 1
      rfl).2.2.1 rfl,
   ((cursor_wraps_to_first_element (.mk NBT_TAG_COMPOUND
      (.compound (some [.mk NBT_TAG_INT (.scalar 5) 0 ⟨1, some [120]⟩,
        .mk NBT_TAG_END (.scalar 0) 0 ⟨0, none⟩])) 0 ⟨0, none⟩) 1 5
      rfl).2.2.2.2 rfl).2⟩

/-- C9. On a node whose children kind is not Byte, Short, Int or Long,
`nbt_set_integer` returns `NBT_ERR_INVALID_TYPE`; when it is not Float or
Double, so does `nbt_set_real`; when it is not String, so does
`nbt_set_string`. In each case the node is left as it was: kind, payload,
length and cursor. -/
theorem setters_reject_other_children_kind (t : nbt_tag) (k : Int)
    (hk : nbt_get_children_type (some t) = some k) :
    (k ≠ NBT_TAG_BYTE ∧ k ≠ NBT_TAG_SHORT ∧ k ≠ NBT_TAG_INT ∧ k ≠ NBT_TAG_LONG →
      ∀ v : Int, nbt_set_integer (some t) v = some (NBT_ERR_INVALID_TYPE, some t)) ∧
    (k ≠ NBT_TAG_FLOAT ∧ k ≠ NBT_TAG_DOUBLE →
      ∀ (to_float : Nat → Nat) (v : Nat),
        nbt_set_real to_float (some t) v = some (NBT_ERR_INVALID_TYPE, some t)) ∧
    (k ≠ NBT_TAG_STRING →
      ∀ (realloc_ok : Bool) (v : Option (List Nat)),
        nbt_set_string realloc_ok (some t) v = some (NBT_ERR_INVALID_TYPE, some t)) := by
  refine ⟨?_, ?_, ?_⟩
  · rintro ⟨h1, h2, h3, h4⟩ v
    simp [nbt_set_integer, hk, NBT_IS_INTEGER, h1, h2, h3, h4]
  · rintro ⟨h1, h2⟩ to_float v
    simp [nbt_set_real, hk, NBT_IS_REAL, h1, h2]
  · intro h1 realloc_ok v
    simp [nbt_set_string, hk, NBT_IS_STRING, h1]

/-- C9, at concrete nodes: an integer is refused by a Double node, a real by a
list of Int, a string by a byte array. -/
theorem setters_reject_other_children_kind_witness :
    nbt_set_integer (some (.mk NBT_TAG_DOUBLE (.scalar 0) 0 ⟨0, none⟩)) 5 =
      some (NBT_ERR_INVALID_TYPE, some (.mk NBT_TAG_DOUBLE (.scalar 0) 0 ⟨0, none⟩)) ∧
    nbt_set_real (fun b => b) (some (.mk NBT_TAG_LIST
        (.list NBT_TAG_INT 1 (some [.scalar 3])) 0 ⟨0, none⟩)) 4609434218613702656 =
      some (NBT_ERR_INVALID_TYPE, some (.mk NBT_TAG_LIST
        (.list NBT_TAG_INT 1 (some [.scalar 3])) 0 ⟨0, none⟩)) ∧
    nbt_set_string true (some (.mk NBT_TAG_BYTE_ARRAY (.byte_array 1 (some [3])) 0 ⟨0, none⟩))
        (some [104, 105]) =
      some (NBT_ERR_INVALID_TYPE,
        some (.mk NBT_TAG_BYTE_ARRAY (.byte_array 1 (some [3])) 0 ⟨0, none⟩)) :=
  ⟨(setters_reject_other_children_kind (.mk NBT_TAG_DOUBLE (.scalar 0) 0 ⟨0, none⟩)
      NBT_TAG_DOUBLE rfl).1 (by decide) 5,
   (setters_reject_other_children_kind (.mk NBT_TAG_LIST
      (.list NBT_TAG_INT 1 (some [.scalar 3])) 0 ⟨0, none⟩) NBT_TAG_INT rfl).2.1 (by decide)
      (fun b => b) 4609434218613702656,
   (setters_reject_other_children_kind (.mk NBT_TAG_BYTE_ARRAY (.byte_array 1 (some [3])) 0
      ⟨0, none⟩) NBT_TAG_BYTE rfl).2.2 (by decide) true (some [104, 105])⟩

/-- C3, at the failing input: 5 is inserted into an empty int array, the cursor
is set back to 0, and `nbt_get_integer` then returns 0 and not 5: its switch
is on the kind of the node, which is IntArray, so it takes the default case. -/
theorem round_trip_int_array_reads_zero :
    nbt_insert_integer true (some (.mk NBT_TAG_INT_ARRAY (.int_array 0 none) 0 ⟨0, none⟩)) 5 =
      some (1, some (.mk NBT_TAG_INT_ARRAY (.int_array 1 (some [5])) 1 ⟨0, none⟩)) ∧
    (nbt_set_position (some (.mk NBT_TAG_INT_ARRAY (.int_array 1 (some [5])) 1 ⟨0, none⟩)) 0).2 =
      some (.mk NBT_TAG_INT_ARRAY (.int_array 1 (some [5])) 0 ⟨0, none⟩) ∧
    nbt_get_integer (some (.mk NBT_TAG_INT_ARRAY (.int_array 1 (some [5])) 0 ⟨0, none⟩)) =
      some (0, some (.mk NBT_TAG_INT_ARRAY (.int_array 1 (some [5])) 1 ⟨0, none⟩)) :=
  ⟨rfl, rfl, rfl⟩

/-- C4, at the failing inputs. The witness of the claim: after the first child
is inserted into an empty Compound the buffer holds that child alone, without
End entry, so the length scan runs off the buffer and the second insert has no
defined result. On an empty byte array one insert followed by one remove has
no defined result either: the insert leaves the cursor at the length, and the
`memmove` of `delete` then gets the count `1 - 2`. -/
theorem length_invariant_fails_on_witness :
    nbt_insert_tag true (some (.mk NBT_TAG_COMPOUND (.compound none) 0 ⟨0, none⟩))
        (some (.mk NBT_TAG_INT (.scalar 5) 0 ⟨1, some [120]⟩)) =
      some (1, some (.mk NBT_TAG_COMPOUND
        (.compound (some [.mk NBT_TAG_INT (.scalar 5) 0 ⟨1, some [120]⟩])) 1 ⟨0, none⟩)) ∧
    nbt_get_length (some (.mk NBT_TAG_COMPOUND
        (.compound (some [.mk NBT_TAG_INT (.scalar 5) 0 ⟨1, some [120]⟩])) 1 ⟨0, none⟩)) = none ∧
    nbt_insert_tag true (some (.mk NBT_TAG_COMPOUND
        (.compound (some [.mk NBT_TAG_INT (.scalar 5) 0 ⟨1, some [120]⟩])) 1 ⟨0, none⟩))
        (some (.mk NBT_TAG_STRING (.string ⟨2, some [104, 105]⟩) 0 ⟨1, some [121]⟩)) = none ∧
    run [.ins 7, .rem] (.mk NBT_TAG_BYTE_ARRAY (.byte_array 0 none) 0 ⟨0, none⟩) = none :=
  ⟨rfl, rfl, rfl, rfl⟩

/-- C5, at the failing input: a Compound whose buffer holds the End entry only
(length 0) gets a child inserted at cursor 0. The new buffer holds the child
and no End entry: `insert` copies `length` old entries, and the End entry is
the one after them. The length scan of the result runs off the buffer. -/
theorem compound_insert_drops_end_entry :
    nbt_insert_tag true
        (some (.mk NBT_TAG_COMPOUND (.compound (some [.mk NBT_TAG_END (.scalar 0) 0 ⟨0, none⟩]))
          0 ⟨0, none⟩))
        (some (.mk NBT_TAG_INT (.scalar 5) 0 ⟨1, some [120]⟩)) =
      some (1, some (.mk NBT_TAG_COMPOUND
        (.compound (some [.mk NBT_TAG_INT (.scalar 5) 0 ⟨1, some [120]⟩])) 1 ⟨0, none⟩)) ∧
    nbt_get_length (some (.mk NBT_TAG_COMPOUND
        (.compound (some [.mk NBT_TAG_INT (.scalar 5) 0 ⟨1, some [120]⟩])) 1 ⟨0, none⟩)) = none :=
  ⟨rfl, rfl⟩

/-- C7, at the failing input: on a list of Int holding 20 and 30 with the
cursor at 0, `nbt_get_integer` returns 0 and not 20; the cursor advances to 1. -/
theorem nbt_get_integer_on_list_reads_zero :
    nbt_get_integer (some (.mk NBT_TAG_LIST
        (.list NBT_TAG_INT 2 (some [.scalar 20, .scalar 30])) 0 ⟨0, none⟩)) =
      some (0, some (.mk NBT_TAG_LIST
        (.list NBT_TAG_INT 2 (some [.scalar 20, .scalar 30])) 1 ⟨0, none⟩)) :=
  rfl

/-- C8, at the failing input: on a list of Int holding 1 and 2 with the cursor
at 2, `nbt_insert_real` with 1.5 (bit pattern `0x3FF8000000000000`) does not
return `NBT_ERR_INVALID_TYPE`: it has no test of the children kind and calls
`insert`. When `malloc` returns no block the result is `NBT_ERR_MEMORY`; when
it returns one, `insert` copies `sizeof(nbt_payload)` bytes from the eight-byte
parameter, which has no defined result. The sibling `nbt_set_real` has the
test and returns `NBT_ERR_INVALID_TYPE` on the same node. -/
theorem nbt_insert_real_without_kind_test :
    nbt_insert_real false (some (.mk NBT_TAG_LIST
        (.list NBT_TAG_INT 2 (some [.scalar 1, .scalar 2])) 2 ⟨0, none⟩)) 4609434218613702656 =
      some (NBT_ERR_MEMORY, some (.mk NBT_TAG_LIST
        (.list NBT_TAG_INT 2 (some [.scalar 1, .scalar 2])) 2 ⟨0, none⟩)) ∧
    nbt_insert_real true (some (.mk NBT_TAG_LIST
        (.list NBT_TAG_INT 2 (some [.scalar 1, .scalar 2])) 2 ⟨0, none⟩)) 4609434218613702656 =
      none ∧
    nbt_set_real (fun b => b) (some (.mk NBT_TAG_LIST
        (.list NBT_TAG_INT 2 (some [.scalar 1, .scalar 2])) 2 ⟨0, none⟩)) 4609434218613702656 =
      some (NBT_ERR_INVALID_TYPE, some (.mk NBT_TAG_LIST
        (.list NBT_TAG_INT 2 (some [.scalar 1, .scalar 2])) 2 ⟨0, none⟩)) :=
  ⟨rfl, rfl, rfl⟩

/-- C10, at the failing inputs: `nbt_set_integer` writes eight bytes whatever
the element width. On a byte array of eight zero bytes with the cursor at 0
the value -1 overwrites all eight elements; on an int array holding 1 and 2 the
value 5 sets the first element to 5 and the second to 0; on a byte array of
three elements the write runs past the buffer. -/
theorem nbt_set_integer_overwrites_neighbours :
    nbt_set_integer (some (.mk NBT_TAG_BYTE_ARRAY
        (.byte_array 8 (some [0, 0, 0, 0, 0, 0, 0, 0])) 0 ⟨0, none⟩)) (-1) =
      some (1, some (.mk NBT_TAG_BYTE_ARRAY
        (.byte_array 8 (some [-1, -1, -1, -1, -1, -1, -1, -1])) 1 ⟨0, none⟩)) ∧
    nbt_set_integer (some (.mk NBT_TAG_INT_ARRAY (.int_array 2 (some [1, 2])) 0 ⟨0, none⟩)) 5 =
      some (1, some (.mk NBT_TAG_INT_ARRAY (.int_array 2 (some [5, 0])) 1 ⟨0, none⟩)) ∧
    nbt_set_integer (some (.mk NBT_TAG_BYTE_ARRAY (.byte_array 3 (some [1, 2, 3])) 0 ⟨0, none⟩))
        5 = none :=
  ⟨rfl, rfl, rfl⟩

/-- C14. On a node whose kind is not ByteArray, List, IntArray or Compound,
`insert` reached through `nbt_insert_tag` with a value, and `delete` reached
through `nbt_remove`, return `NBT_ERR_INVALID_TYPE` and leave the node as it
was: kind, payload and cursor. -/
theorem resize_rejects_single_valued_kinds (t : nbt_tag)
    (hkind : t.id ≠ NBT_TAG_BYTE_ARRAY ∧ t.id ≠ NBT_TAG_LIST ∧ t.id ≠ NBT_TAG_INT_ARRAY ∧
      t.id ≠ NBT_TAG_COMPOUND) :
    (∀ (malloc_ok : Bool) (v : nbt_tag),
      nbt_insert_tag malloc_ok (some t) (some v) = some (NBT_ERR_INVALID_TYPE, some t)) ∧
    (∀ realloc_ok : Bool, nbt_remove realloc_ok (some t) = some (NBT_ERR_INVALID_TYPE, some t)) := by
  obtain ⟨h1, h2, h3, h4⟩ := hkind
  refine ⟨?_, ?_⟩
  · intro malloc_ok v
    simp [nbt_insert_tag, insert, h1, h2, h3, h4]
  · intro realloc_ok
    simp [nbt_remove, delete, h1, h2, h3, h4]

/-- C14, at concrete nodes: an Int node refuses a child, a String node refuses
a removal. -/
theorem resize_rejects_single_valued_kinds_witness :
    nbt_insert_tag true (some (.mk NBT_TAG_INT (.scalar 5) 0 ⟨0, none⟩))
        (some (.mk NBT_TAG_BYTE (.scalar 1) 0 ⟨0, none⟩)) =
      some (NBT_ERR_INVALID_TYPE, some (.mk NBT_TAG_INT (.scalar 5) 0 ⟨0, none⟩)) ∧
    nbt_remove true (some (.mk NBT_TAG_STRING (.string ⟨2, some [104, 105]⟩) 3 ⟨0, none⟩)) =
      some (NBT_ERR_INVALID_TYPE,
        some (.mk NBT_TAG_STRING (.string ⟨2, some [104, 105]⟩) 3 ⟨0, none⟩)) :=
  ⟨(resize_rejects_single_valued_kinds (.mk NBT_TAG_INT (.scalar 5) 0 ⟨0, none⟩)
      (by decide)).1 true (.mk NBT_TAG_BYTE (.scalar 1) 0 ⟨0, none⟩),
   (resize_rejects_single_valued_kinds
      (.mk NBT_TAG_STRING (.string ⟨2, some [104, 105]⟩) 3 ⟨0, none⟩) (by decide)).2 true⟩

/-- C15. On a ByteArray, IntArray, List or Compound node whose logical length
is 0, whatever the cursor, `nbt_remove` returns 1 and leaves the node as it
was: the length stays 0, and buffer, cursor and kind are unchanged. -/
theorem nbt_remove_on_empty_is_no_op (t : nbt_tag) (realloc_ok : Bool)
    (hkind : t.id = NBT_TAG_BYTE_ARRAY ∨ t.id = NBT_TAG_INT_ARRAY ∨ t.id = NBT_TAG_LIST ∨
      t.id = NBT_TAG_COMPOUND)
    (hlen : nbt_get_length (some t) = some 0) :
    nbt_remove realloc_ok (some t) = some (1, some t) := by
  obtain ⟨id, payload, position, name⟩ := t
  simp only [nbt_tag.id] at hkind
  rcases hkind with h | h | h | h <;> subst h <;> cases payload <;>
    simp_all [nbt_remove, delete, nbt_get_length, nbt_tag.id, nbt_tag.payload]

/-- C15, at concrete nodes: an empty node of each kind, with the cursor at 4;
the Compound has no child buffer. -/
theorem nbt_remove_on_empty_is_no_op_witness :
    nbt_remove true (some (.mk NBT_TAG_BYTE_ARRAY (.byte_array 0 none) 4 ⟨0, none⟩)) =
      some (1, some (.mk NBT_TAG_BYTE_ARRAY (.byte_array 0 none) 4 ⟨0, none⟩)) ∧
    nbt_remove true (some (.mk NBT_TAG_INT_ARRAY (.int_array 0 none) 4 ⟨0, none⟩)) =
      some (1, some (.mk NBT_TAG_INT_ARRAY (.int_array 0 none) 4 ⟨0, none⟩)) ∧
    nbt_remove true (some (.mk NBT_TAG_LIST (.list NBT_TAG_INT 0 none) 4 ⟨0, none⟩)) =
      some (1, some (.mk NBT_TAG_LIST (.list NBT_TAG_INT 0 none) 4 ⟨0, none⟩)) ∧
    nbt_remove true (some (.mk NBT_TAG_COMPOUND (.compound none) 4 ⟨0, none⟩)) =
      some (1, some (.mk NBT_TAG_COMPOUND (.compound none) 4 ⟨0, none⟩)) :=
  ⟨nbt_remove_on_empty_is_no_op _ true (Or.inl rfl) rfl,
   nbt_remove_on_empty_is_no_op _ true (Or.inr (Or.inl rfl)) rfl,
   nbt_remove_on_empty_is_no_op _ true (Or.inr (Or.inr (Or.inl rfl))) rfl,
   nbt_remove_on_empty_is_no_op _ true (Or.inr (Or.inr (Or.inr rfl))) rfl⟩

/-- C16. The function `nbt_get_children_type` returns `NBT_TAG_INVALID` for an
absent node, Byte for a ByteArray, Int for an IntArray, the recorded children
kind for a List, the marker `NBT_TAG_TAG` for a Compound, and the kind of the
node for every other kind. -/
theorem nbt_get_children_type_by_kind :
    nbt_get_children_type none = some NBT_TAG_INVALID ∧
    ∀ t : nbt_tag,
      (t.id = NBT_TAG_BYTE_ARRAY → nbt_get_children_type (some t) = some NBT_TAG_BYTE) ∧
      (t.id = NBT_TAG_INT_ARRAY → nbt_get_children_type (some t) = some NBT_TAG_INT) ∧
      (t.id = NBT_TAG_LIST → ∀ (k n : Int) (buf : Option (List nbt_payload)),
        t.payload = .list k n buf → nbt_get_children_type (some t) = some k) ∧
      (t.id = NBT_TAG_COMPOUND → nbt_get_children_type (some t) = some NBT_TAG_TAG) ∧
      (t.id ≠ NBT_TAG_BYTE_ARRAY ∧ t.id ≠ NBT_TAG_INT_ARRAY ∧ t.id ≠ NBT_TAG_LIST ∧
          t.id ≠ NBT_TAG_COMPOUND →
        nbt_get_children_type (some t) = some t.id) := by
  refine ⟨rfl, fun t => ⟨?_, ?_, ?_, ?_, ?_⟩⟩
  · intro h
    simp [nbt_get_children_type, h]
  · intro h
    simp [nbt_get_children_type, h]
  · intro h k n buf hp
    simp [nbt_get_children_type, h, hp]
  · intro h
    simp [nbt_get_children_type, h]
  · rintro ⟨h1, h2, h3, h4⟩
    simp [nbt_get_children_type, h1, h2, h3, h4]

/-- C16, at concrete nodes: one node of each of the five cases. -/
theorem nbt_get_children_type_by_kind_witness :
    nbt_get_children_type (some (.mk NBT_TAG_BYTE_ARRAY (.byte_array 1 (some [3])) 0 ⟨0, none⟩)) =
      some NBT_TAG_BYTE ∧
    nbt_get_children_type (some (.mk NBT_TAG_INT_ARRAY (.int_array 1 (some [3])) 0 ⟨0, none⟩)) =
      some NBT_TAG_INT ∧
    nbt_get_children_type (some (.mk NBT_TAG_LIST (.list NBT_TAG_DOUBLE 0 none) 0 ⟨0, none⟩)) =
      some NBT_TAG_DOUBLE ∧
    nbt_get_children_type (some (.mk NBT_TAG_COMPOUND (.compound none) 0 ⟨0, none⟩)) =
      some NBT_TAG_TAG ∧
    nbt_get_children_type (some (.mk NBT_TAG_STRING (.string ⟨0, none⟩) 0 ⟨0, none⟩)) =
      some NBT_TAG_STRING :=
  ⟨(nbt_get_children_type_by_kind.2
      (.mk NBT_TAG_BYTE_ARRAY (.byte_array 1 (some [3])) 0 ⟨0, none⟩)).1 rfl,
   (nbt_get_children_type_by_kind.2
      (.mk NBT_TAG_INT_ARRAY (.int_array 1 (some [3])) 0 ⟨0, none⟩)).2.1 rfl,
   (nbt_get_children_type_by_kind.2
      (.mk NBT_TAG_LIST (.list NBT_TAG_DOUBLE 0 none) 0 ⟨0, none⟩)).2.2.1 rfl
      NBT_TAG_DOUBLE 0 none rfl,
   (nbt_get_children_type_by_kind.2
      (.mk NBT_TAG_COMPOUND (.compound none) 0 ⟨0, none⟩)).2.2.2.1 rfl,
   (nbt_get_children_type_by_kind.2
      (.mk NBT_TAG_STRING (.string ⟨0, none⟩) 0 ⟨0, none⟩)).2.2.2.2 (by decide)⟩

/-- C20. On a ByteArray or IntArray node, whatever its length and contents,
`nbt_set_children_type` with any kind value `k` returns 1 and makes the node a
List with children kind `k`, size 0 and no buffer; on a node that is neither
ByteArray, IntArray nor List it returns `NBT_ERR_INVALID_TYPE` and leaves the
node as it was. -/
theorem nbt_set_children_type_retypes_arrays (t : nbt_tag) (k : Int) :
    (t.id = NBT_TAG_BYTE_ARRAY ∨ t.id = NBT_TAG_INT_ARRAY →
      nbt_set_children_type (some t) k =
        some (1, some (.mk NBT_TAG_LIST (.list k 0 none) t.position t.name))) ∧
    (t.id ≠ NBT_TAG_BYTE_ARRAY ∧ t.id ≠ NBT_TAG_INT_ARRAY ∧ t.id ≠ NBT_TAG_LIST →
      nbt_set_children_type (some t) k = some (NBT_ERR_INVALID_TYPE, some t)) := by
  refine ⟨?_, ?_⟩
  · intro h
    simp [nbt_set_children_type, h]
  · rintro ⟨h1, h2, h3⟩
    simp [nbt_set_children_type, h1, h2, h3]

/-- C20, at concrete nodes: a byte array of three elements becomes an empty
list of Double; a Compound is refused. -/
theorem nbt_set_children_type_retypes_arrays_witness :
    nbt_set_children_type
        (some (.mk NBT_TAG_BYTE_ARRAY (.byte_array 3 (some [1, 2, 3])) 2 ⟨0, none⟩))
        NBT_TAG_DOUBLE =
      some (1, some (.mk NBT_TAG_LIST (.list NBT_TAG_DOUBLE 0 none) 2 ⟨0, none⟩)) ∧
    nbt_set_children_type (some (.mk NBT_TAG_COMPOUND (.compound none) 0 ⟨0, none⟩))
        NBT_TAG_INT =
      some (NBT_ERR_INVALID_TYPE, some (.mk NBT_TAG_COMPOUND (.compound none) 0 ⟨0, none⟩)) :=
  ⟨(nbt_set_children_type_retypes_arrays
      (.mk NBT_TAG_BYTE_ARRAY (.byte_array 3 (some [1, 2, 3])) 2 ⟨0, none⟩) NBT_TAG_DOUBLE).1
      (Or.inl rfl),
   (nbt_set_children_type_retypes_arrays (.mk NBT_TAG_COMPOUND (.compound none) 0 ⟨0, none⟩)
      NBT_TAG_INT).2 (by decide)⟩

/-- A scalar member of `w ≤ 64` bits read from the eight bytes of a stored
64-bit value is that value narrowed to `w` bits. -/
theorem of_bits_to_bits (w : Nat) (hw : w ≤ 64) (v : Int) :
    of_bits w (to_bits 64 v) = narrow w v := by
  have h64 : (0 : Int) ≤ v % (2 : Int) ^ 64 := Int.emod_nonneg _ (by positivity)
  have hcast : (((v % (2 : Int) ^ 64).toNat % 2 ^ w : Nat) : Int) = v % (2 : Int) ^ w := by
    rw [Int.natCast_mod, Int.toNat_of_nonneg h64]
    push_cast
    exact Int.emod_emod_of_dvd _ (pow_dvd_pow 2 hw)
  have hlt : ((v % (2 : Int) ^ 64).toNat % 2 ^ w < 2 ^ (w - 1)) ↔
      (v % (2 : Int) ^ w < (2 : Int) ^ (w - 1)) := by
    rw [← hcast]
    have : ((2 : Int) ^ (w - 1)) = ((2 ^ (w - 1) : Nat) : Int) := by push_cast; rfl
    rw [this, Nat.cast_lt]
  unfold of_bits to_bits narrow
  simp only [hcast, hlt]

/-- Narrowing keeps a value that fits in `w` bits. -/
theorem narrow_of_fits (w : Nat) (hw : 1 ≤ w) (v : Int)
    (hlo : -(2 : Int) ^ (w - 1) ≤ v) (hhi : v < (2 : Int) ^ (w - 1)) : narrow w v = v := by
  have hpow : (2 : Int) ^ w = 2 * (2 : Int) ^ (w - 1) := by
    rw [← pow_succ']
    congr 1
    omega
  have hp : (0 : Int) < (2 : Int) ^ (w - 1) := by positivity
  unfold narrow
  rcases lt_or_le v 0 with hneg | hpos
  · have hmod : v % (2 : Int) ^ w = v + (2 : Int) ^ w := by
      rw [← Int.add_emod_self]
      exact Int.emod_eq_of_lt (by rw [hpow]; linarith) (by linarith)
    rw [hmod, if_neg (by rw [hpow]; linarith)]
    ring
  · have hmod : v % (2 : Int) ^ w = v := Int.emod_eq_of_lt hpos (by rw [hpow]; linarith)
    rw [hmod, if_pos hhi]

/-- C11. On a scalar node of kind Byte, Short, Int or Long, of width `w` = 8,
16, 32 or 64 bits, whatever its payload and cursor: `next_payload` addresses the
payload of the node itself; `nbt_set_integer` with `v` returns 1; and
`nbt_get_integer` on the resulting node returns `v` narrowed to `w` bits and
extended with its sign, which is `v` itself when `v` fits in `w` bits. -/
theorem scalar_set_then_get_integer (K : Int) (w : Nat)
    (hK : (K = NBT_TAG_BYTE ∧ w = 8) ∨ (K = NBT_TAG_SHORT ∧ w = 16) ∨
      (K = NBT_TAG_INT ∧ w = 32) ∨ (K = NBT_TAG_LONG ∧ w = 64))
    (p : nbt_payload) (c : Nat) (name : nbt_string) (v : Int) :
    next_payload (.mk K p c name) = some (.self, .mk K p 0 name) ∧
    nbt_set_integer (some (.mk K p c name)) v =
      some (1, some (.mk K (.scalar (to_bits 64 v)) 0 name)) ∧
    nbt_get_integer (some (.mk K (.scalar (to_bits 64 v)) 0 name)) =
      some (narrow w v, some (.mk K (.scalar (to_bits 64 v)) 0 name)) ∧
    (-(2 : Int) ^ (w - 1) ≤ v → v < (2 : Int) ^ (w - 1) → narrow w v = v) := by
  have hw : w ≤ 64 ∧ 1 ≤ w := by
    rcases hK with ⟨_, h⟩ | ⟨_, h⟩ | ⟨_, h⟩ | ⟨_, h⟩ <;> subst h <;> decide
  have hc : (if c ≥ 1 then 0 else c) = 0 := by
    split <;> omega
  have hbits := of_bits_to_bits w hw.1 v
  refine ⟨?_, ?_, ?_, fun hlo hhi => narrow_of_fits w hw.2 v hlo hhi⟩
  · rcases hK with ⟨h, _⟩ | ⟨h, _⟩ | ⟨h, _⟩ | ⟨h, _⟩ <;> subst h <;>
      simp [next_payload, nbt_get_length, nbt_tag.id, nbt_tag.payload, nbt_tag.position,
        nbt_tag.name, nbt_tag.with_position, hc]
  · rcases hK with ⟨h, _⟩ | ⟨h, _⟩ | ⟨h, _⟩ | ⟨h, _⟩ <;> subst h <;>
      simp [nbt_set_integer, nbt_get_children_type, NBT_IS_INTEGER, next_payload,
        nbt_get_length, store_long, store_payload, nbt_tag.id, nbt_tag.payload,
        nbt_tag.position, nbt_tag.name, nbt_tag.with_position, nbt_tag.with_payload, hc]
  · rcases hK with ⟨h, hw8⟩ | ⟨h, hw8⟩ | ⟨h, hw8⟩ | ⟨h, hw8⟩ <;> subst h <;> subst hw8 <;>
      simp [nbt_get_integer, next_payload, nbt_get_length, load_payload, scalar_bits,
        nbt_tag.id, nbt_tag.payload, nbt_tag.position, nbt_tag.name,
        nbt_tag.with_position, hbits]

/-- C11, at concrete nodes: 300 stored in a Byte node with cursor 9 is read
back as 44; -70000 stored in an Int node is read back as it is. -/
theorem scalar_set_then_get_integer_witness :
    (nbt_set_integer (some (.mk NBT_TAG_BYTE (.scalar 0) 9 ⟨0, none⟩)) 300 =
        some (1, some (.mk NBT_TAG_BYTE (.scalar 300) 0 ⟨0, none⟩)) ∧
      nbt_get_integer (some (.mk NBT_TAG_BYTE (.scalar 300) 0 ⟨0, none⟩)) =
        some (44, some (.mk NBT_TAG_BYTE (.scalar 300) 0 ⟨0, none⟩))) ∧
    nbt_get_integer (some (.mk NBT_TAG_INT (.scalar (to_bits 64 (-70000))) 0 ⟨0, none⟩)) =
      some (-70000, some (.mk NBT_TAG_INT (.scalar (to_bits 64 (-70000))) 0 ⟨0, none⟩)) :=
  ⟨⟨(scalar_set_then_get_integer NBT_TAG_BYTE 8 (Or.inl ⟨rfl, rfl⟩) (.scalar 0) 9 ⟨0, none⟩
      300).2.1,
    (scalar_set_then_get_integer NBT_TAG_BYTE 8 (Or.inl ⟨rfl, rfl⟩) (.scalar 0) 9 ⟨0, none⟩
      300).2.2.1⟩,
   (scalar_set_then_get_integer NBT_TAG_INT 32 (Or.inr (Or.inr (Or.inl ⟨rfl, rfl⟩)))
      (.scalar 0) 0 ⟨0, none⟩ (-70000)).2.2.1⟩

/-- The function `nbt_set_type` with a kind in the valid range changes the kind
and nothing else: payload, cursor and name stay as they were. -/
theorem nbt_set_type_keeps_payload (t : nbt_tag) (K : Int)
    (hK : NBT_TAG_END ≤ K ∧ K ≤ NBT_TAG_INT_ARRAY) :
    nbt_set_type (some t) K = (1, some (.mk K t.payload t.position t.name)) := by
  obtain ⟨h1, h2⟩ := hK
  have h : ¬ (K < NBT_TAG_END ∨ K > NBT_TAG_INT_ARRAY) := by
    simp only [not_or, not_lt, gt_iff_lt]
    exact ⟨h1, h2⟩
  simp only [nbt_set_type, h, if_false]

/-- C12, at the failing inputs: `nbt_set_type` returns 1 and leaves the payload
as it was. An Int node holding 7 retyped to Long still holds 7; a String node
of length 5 retyped to String still has length 5; a byte array of three
elements retyped to ByteArray still has length 3. -/
theorem nbt_set_type_keeps_old_payload :
    nbt_set_type (some (.mk NBT_TAG_INT (.scalar 7) 0 ⟨0, none⟩)) NBT_TAG_LONG =
      (1, some (.mk NBT_TAG_LONG (.scalar 7) 0 ⟨0, none⟩)) ∧
    nbt_get_integer (some (.mk NBT_TAG_LONG (.scalar 7) 0 ⟨0, none⟩)) =
      some (7, some (.mk NBT_TAG_LONG (.scalar 7) 0 ⟨0, none⟩)) ∧
    nbt_set_type
        (some (.mk NBT_TAG_STRING (.string ⟨5, some [104, 101, 108, 108, 111]⟩) 0 ⟨0, none⟩))
        NBT_TAG_STRING =
      (1, some (.mk NBT_TAG_STRING (.string ⟨5, some [104, 101, 108, 108, 111]⟩) 0
        ⟨0, none⟩)) ∧
    nbt_get_length
        (some (.mk NBT_TAG_STRING (.string ⟨5, some [104, 101, 108, 108, 111]⟩) 0 ⟨0, none⟩)) =
      some 5 ∧
    nbt_set_type (some (.mk NBT_TAG_BYTE_ARRAY (.byte_array 3 (some [1, 2, 3])) 0 ⟨0, none⟩))
        NBT_TAG_BYTE_ARRAY =
      (1, some (.mk NBT_TAG_BYTE_ARRAY (.byte_array 3 (some [1, 2, 3])) 0 ⟨0, none⟩)) ∧
    nbt_get_length (some (.mk NBT_TAG_BYTE_ARRAY (.byte_array 3 (some [1, 2, 3])) 0 ⟨0, none⟩)) =
      some 3 :=
  ⟨rfl, rfl, rfl, rfl, rfl, rfl⟩

/-- The reads that do test the kind: on a node whose kind is not Byte, Short,
Int or Long `nbt_get_integer` returns 0; on a node whose kind is not Float or
Double `nbt_get_real` returns 0; on a node whose kind is not Compound
`nbt_get_tag` returns the null pointer and leaves the node as it was. -/
theorem typed_reads_with_kind_test (t : nbt_tag) :
    (t.id ≠ NBT_TAG_BYTE ∧ t.id ≠ NBT_TAG_SHORT ∧ t.id ≠ NBT_TAG_INT ∧ t.id ≠ NBT_TAG_LONG →
      ∀ r, next_payload t = some r → nbt_get_integer (some t) = some (0, some r.2)) ∧
    (t.id ≠ NBT_TAG_FLOAT ∧ t.id ≠ NBT_TAG_DOUBLE →
      ∀ r, next_payload t = some r → nbt_get_real (some t) = some (.of_int 0, some r.2)) ∧
    (t.id ≠ NBT_TAG_COMPOUND → nbt_get_tag (some t) = some (none, some t)) := by
  have hid : ∀ r, next_payload t = some r → r.2.id = t.id := by
    intro r hr
    obtain ⟨id, payload, position, name⟩ := t
    simp only [next_payload, Option.bind_eq_some] at hr
    obtain ⟨len, _, hr⟩ := hr
    split_ifs at hr <;> simp only [Option.some.injEq] at hr <;> subst hr <;> rfl
  refine ⟨?_, ?_, ?_⟩
  · rintro ⟨h1, h2, h3, h4⟩ r hr
    have := hid r hr
    simp [nbt_get_integer, hr, this, h1, h2, h3, h4]
  · rintro ⟨h1, h2⟩ r hr
    have := hid r hr
    simp [nbt_get_real, hr, this, h1, h2]
  · intro h
    simp [nbt_get_tag, h]

/-- C17, at the failing input: a String node holding "hi" is retyped to Int by
`nbt_set_type`; its children kind is then Int, not String, and
`nbt_get_string` returns the character buffer of the old string, not the null
pointer: it reads the string member without any test of the kind. -/
theorem nbt_get_string_has_no_kind_test :
    nbt_set_type (some (.mk NBT_TAG_STRING (.string ⟨2, some [104, 105]⟩) 0 ⟨0, none⟩))
        NBT_TAG_INT =
      (1, some (.mk NBT_TAG_INT (.string ⟨2, some [104, 105]⟩) 0 ⟨0, none⟩)) ∧
    nbt_get_children_type (some (.mk NBT_TAG_INT (.string ⟨2, some [104, 105]⟩) 0 ⟨0, none⟩)) =
      some NBT_TAG_INT ∧
    nbt_get_string (some (.mk NBT_TAG_INT (.string ⟨2, some [104, 105]⟩) 0 ⟨0, none⟩)) =
      some (some [104, 105], some (.mk NBT_TAG_INT (.string ⟨2, some [104, 105]⟩) 0 ⟨0, none⟩)) :=
  ⟨rfl, rfl, rfl⟩

/-- C19 as stated fails: `nbt_insert_integer` with a non-zero value does not
always return 1. On a byte array of two elements with the cursor at 5 the first
`memcpy` of `insert` takes five elements from a buffer of two; on an empty list
of Int `insert` copies `sizeof(nbt_payload)` bytes from the eight-byte
parameter. Neither call has a defined result. -/
theorem nbt_insert_integer_without_success :
    nbt_insert_integer true
      (some (.mk NBT_TAG_BYTE_ARRAY (.byte_array 2 (some [1, 2])) 5 ⟨0, none⟩)) 7 = none ∧
    nbt_insert_integer true
      (some (.mk NBT_TAG_LIST (.list NBT_TAG_INT 0 none) 0 ⟨0, none⟩)) 7 = none :=
  ⟨rfl, rfl⟩

/-- C19, amended. On every node `nbt_insert_integer` with 0 returns
`NBT_ERR_INVALID_ARG` and leaves the node as it was; with a non-zero `v` it
returns what `insert` returns for the eight bytes of `v`; on a ByteArray or
IntArray node that holds `n` elements with the cursor at `c ≤ n`, the new
length within the range of `nbt_int` and the byte offset of the cursor within
the range of `int`, that is 1 when `malloc` returns a block, the new element
being `v` narrowed to the element width. -/
theorem nbt_insert_integer_rejects_zero (t : nbt_tag) (v : Int) :
    (∀ malloc_ok : Bool,
      nbt_insert_integer malloc_ok (some t) 0 = some (NBT_ERR_INVALID_ARG, some t)) ∧
    (v ≠ 0 → ∀ malloc_ok : Bool,
      nbt_insert_integer malloc_ok (some t) v =
        (insert malloc_ok t (.word (to_bits 64 v))).map fun r => (r.1, some r.2)) ∧
    (v ≠ 0 → ∀ (n c : Nat) (name : nbt_string), c ≤ n → n + 1 < 2 ^ 31 →
      (∀ buf : Option (List Int), (buf.getD []).length = n →
        nbt_insert_integer true (some (.mk NBT_TAG_BYTE_ARRAY (.byte_array n buf) c name)) v =
          some (1, some (.mk NBT_TAG_BYTE_ARRAY
            (.byte_array (n + 1)
              (some ((buf.getD []).take c ++ [narrow 8 v] ++ (buf.getD []).drop c)))
            (c + 1) name))) ∧
      (sizeof_nbt_int * c < 2 ^ 31 → ∀ buf : Option (List Int), (buf.getD []).length = n →
        nbt_insert_integer true (some (.mk NBT_TAG_INT_ARRAY (.int_array n buf) c name)) v =
          some (1, some (.mk NBT_TAG_INT_ARRAY
            (.int_array (n + 1)
              (some ((buf.getD []).take c ++ [narrow 32 v] ++ (buf.getD []).drop c)))
            (c + 1) name)))) := by
  refine ⟨?_, ?_, ?_⟩
  · intro malloc_ok
    simp [nbt_insert_integer]
  · intro hv malloc_ok
    simp [nbt_insert_integer, hv]
  · intro hv n c name hc hn
    have h8 := of_bits_to_bits 8 (by decide) v
    have h32 := of_bits_to_bits 32 (by decide) v
    have hsize : to_int (n + 1) = (n : Int) + 1 := by
      rw [to_int_of_lt (n + 1) hn]
      push_cast
      rfl
    refine ⟨?_, ?_⟩
    · intro buf hlen
      have hins := insert_byte_array_at_cursor n c hc (by omega) buf hlen name
        (.word (to_bits 64 v)) (narrow 8 v) (by simp only [Obj.as_byte, h8])
      simp only [nbt_insert_integer, hv, if_false, hins, Option.map_some', hsize]
    · intro hoff buf hlen
      have hins := insert_int_array_at_cursor n c hc (by omega) hoff buf hlen name
        (.word (to_bits 64 v)) (narrow 32 v) (by simp only [Obj.as_int, h32])
      simp only [nbt_insert_integer, hv, if_false, hins, Option.map_some', hsize]

/-- C19, amended, at concrete nodes: 0 is refused by a byte array; 7 is
inserted at cursor 1; 256, whose low byte is 0, is inserted as the element 0. -/
theorem nbt_insert_integer_rejects_zero_witness :
    nbt_insert_integer true
        (some (.mk NBT_TAG_BYTE_ARRAY (.byte_array 2 (some [1, 2])) 1 ⟨0, none⟩)) 0 =
      some (NBT_ERR_INVALID_ARG,
        some (.mk NBT_TAG_BYTE_ARRAY (.byte_array 2 (some [1, 2])) 1 ⟨0, none⟩)) ∧
    nbt_insert_integer true
        (some (.mk NBT_TAG_BYTE_ARRAY (.byte_array 2 (some [1, 2])) 1 ⟨0, none⟩)) 7 =
      some (1, some (.mk NBT_TAG_BYTE_ARRAY (.byte_array 3 (some [1, 7, 2])) 2 ⟨0, none⟩)) ∧
    nbt_insert_integer true
        (some (.mk NBT_TAG_BYTE_ARRAY (.byte_array 2 (some [1, 2])) 1 ⟨0, none⟩)) 256 =
      some (1, some (.mk NBT_TAG_BYTE_ARRAY (.byte_array 3 (some [1, 0, 2])) 2 ⟨0, none⟩)) :=
  ⟨(nbt_insert_integer_rejects_zero
      (.mk NBT_TAG_BYTE_ARRAY (.byte_array 2 (some [1, 2])) 1 ⟨0, none⟩) 7).1 true,
   ((nbt_insert_integer_rejects_zero
      (.mk NBT_TAG_BYTE_ARRAY (.byte_array 2 (some [1, 2])) 1 ⟨0, none⟩) 7).2.2 (by decide)
      2 1 ⟨0, none⟩ (by decide) (by decide)).1 (some [1, 2]) rfl,
   ((nbt_insert_integer_rejects_zero
      (.mk NBT_TAG_BYTE_ARRAY (.byte_array 2 (some [1, 2])) 1 ⟨0, none⟩) 256).2.2 (by decide)
      2 1 ⟨0, none⟩ (by decide) (by decide)).1 (some [1, 2]) rfl⟩

/-- C18, at the failing inputs. On a Compound holding the child "x" (an Int)
and the End entry, with the cursor at 0, `delete` calls `nbt_free` on the
child slot: after the name of the child it releases the slot, which is the
start of the child buffer of the parent, and then calls `realloc` on that
released buffer; `nbt_free_children` on the child releases the name alone.
With a second child "y" (a String) and the cursor at 1, `free` gets a pointer
inside the child buffer. Neither trace is sound for the blocks of the tree. -/
theorem compound_delete_frees_child_slot :
    delete_events (.mk NBT_TAG_COMPOUND
        (.compound (some [.mk NBT_TAG_INT (.scalar 5) 0 ⟨1, some [120]⟩,
          .mk NBT_TAG_END (.scalar 0) 0 ⟨0, none⟩])) 0 ⟨0, none⟩) =
      some [.free (.name [0]) 0, .free (.buffer []) 0, .realloc (.buffer []) 0] ∧
    nbt_free_children [0] (.mk NBT_TAG_INT (.scalar 5) 0 ⟨1, some [120]⟩) =
      some [.free (.name [0]) 0] ∧
    trace_ok [.node, .buffer [], .name [0]]
      [.free (.name [0]) 0, .free (.buffer []) 0, .realloc (.buffer []) 0] = false ∧
    delete_events (.mk NBT_TAG_COMPOUND
        (.compound (some [.mk NBT_TAG_INT (.scalar 5) 0 ⟨1, some [120]⟩,
          .mk NBT_TAG_STRING (.string ⟨2, some [104, 105]⟩) 0 ⟨1, some [121]⟩,
          .mk NBT_TAG_END (.scalar 0) 0 ⟨0, none⟩])) 1 ⟨0, none⟩) =
      some [.free (.name [1]) 0, .free (.buffer [1]) 0, .free (.buffer []) 1,
        .realloc (.buffer []) 0] ∧
    trace_ok [.node, .buffer [], .name [0], .name [1], .buffer [1]]
      [.free (.name [1]) 0, .free (.buffer [1]) 0, .free (.buffer []) 1,
        .realloc (.buffer []) 0] = false :=
  ⟨rfl, rfl, by decide, rfl, by decide⟩

end Snbt
